import Mathlib

/-!
FRC Parts Finder: matcher, fallback resolver and best-price ranking.

A shallow embedding of `frc-parts-finder/js/app.js`.

* JavaScript strings are Lean strings (sequences of Unicode scalar values; strings holding
  lone surrogates are outside the model).
* `String.prototype.toLowerCase` is a built-in whose Unicode case tables are not part of the
  program: every definition that calls it takes it as the parameter `toLowerCase`.
  `asciiLowerCase` is the instance used to evaluate the program on ASCII inputs, where it
  agrees with the built-in.
* JavaScript numbers are `JsNumber`: NaN, the two infinities, or a finite value kept as a
  rational. The program only compares numbers (`>`, `<=`, `===`, `Math.min`), and these
  operations are exact on doubles; decimal literals are kept at their decimal value.
* Object literals used as lookup tables (`REAL_PARTS`, `sourceMap`, the stock labels) are read
  with `obj[name]`, which also finds the members of `Object.prototype`; `objectPrototypeMember`
  lists them.
* The DOM is replaced by the data handed to it: `displayResults` returns the cards it
  appends, `searchParts` returns what it showed together with the writes to the guard flag.
  The remote lookup is an input of `searchParts`: how the `fetch` ended.
-/

namespace FrcPartsFinder

/-! ## JavaScript numbers and the values of a price field -/

/-- A JavaScript number: NaN, an infinity, or a finite value. -/
inductive JsNumber where
  | nan : JsNumber
  | negInf : JsNumber
  | fin (q : ℚ) : JsNumber
  | posInf : JsNumber
  deriving DecidableEq

namespace JsNumber

/-- The test `Number.isNaN(x)`. -/
def isNaN : JsNumber → Bool
  | nan => true
  | _ => false

/-- The comparison `a < b` of JavaScript: false as soon as one side is NaN. -/
def lt : JsNumber → JsNumber → Bool
  | nan, _ => false
  | _, nan => false
  | negInf, negInf => false
  | negInf, _ => true
  | fin _, negInf => false
  | fin a, fin b => decide (a < b)
  | fin _, posInf => true
  | posInf, _ => false

/-- The comparison `a > b` of JavaScript. -/
def gt (a b : JsNumber) : Bool := lt b a

/-- The strict equality `a === b` on numbers: NaN differs from everything, itself included. -/
def strictEq : JsNumber → JsNumber → Bool
  | nan, _ => false
  | _, nan => false
  | a, b => decide (a = b)

/-- The comparison `a <= b` of JavaScript. -/
def le (a b : JsNumber) : Bool := lt a b || strictEq a b

/-- The number zero. -/
def zero : JsNumber := fin 0

/-- Truthiness of a number: everything but zero and NaN. -/
def truthy : JsNumber → Bool
  | nan => false
  | fin q => decide (q ≠ 0)
  | _ => true

/-- One step of `Math.min`: NaN wins, otherwise the smaller argument. -/
def min2 (a b : JsNumber) : JsNumber :=
  if a.isNaN || b.isNaN then nan else if lt b a then b else a

end JsNumber

/-- The call `Math.min(...xs)`: positive infinity for no argument, NaN if an argument is NaN.
The limit an engine puts on the number of spread arguments is not modelled. -/
def mathMin (xs : List JsNumber) : JsNumber :=
  xs.foldl JsNumber.min2 JsNumber.posInf

/-- The values a numeric field of an entry holds: a number, `null`, or nothing (`undefined`).
The program reads a price only through `Number(part.price)`, so any other value (a numeric
string of a remote entry) is represented by the number it converts to. -/
inductive JsValue where
  | undefined : JsValue
  | null : JsValue
  | number (x : JsNumber) : JsValue
  deriving DecidableEq

/-- The conversion `Number(v)`: `null` becomes zero, `undefined` becomes NaN. -/
def Number : JsValue → JsNumber
  | .undefined => .nan
  | .null => .fin 0
  | .number x => x

/-- Truthiness of a field value. -/
def JsValue.truthy : JsValue → Bool
  | .undefined => false
  | .null => false
  | .number x => x.truthy

/-- Truthiness of an optional boolean field (`undefined` when absent). -/
def truthyFlag : Option Bool → Bool
  | some b => b
  | none => false

/-! ## Strings -/

/-- The characters matched by `\s` and removed by `trim`: WhiteSpace and LineTerminator. -/
def isJsWhitespace (c : Char) : Bool :=
  let n := c.toNat
  n == 0x09 || n == 0x0A || n == 0x0B || n == 0x0C || n == 0x0D || n == 0x20 ||
  n == 0xA0 || n == 0x1680 || (0x2000 ≤ n && n ≤ 0x200A) || n == 0x2028 || n == 0x2029 ||
  n == 0x202F || n == 0x205F || n == 0x3000 || n == 0xFEFF

/-- The method `s.trim()`. -/
def trim (s : String) : String :=
  String.mk ((s.toList.dropWhile isJsWhitespace).reverse.dropWhile isJsWhitespace).reverse

/-- Whether `needle` occurs in `hay` as a contiguous block. -/
def isInfixOf (needle : List Char) : List Char → Bool
  | [] => needle.isEmpty
  | c :: cs => needle.isPrefixOf (c :: cs) || isInfixOf needle cs

/-- The method `s.includes(sub)`. -/
def includes (s sub : String) : Bool := isInfixOf sub.toList s.toList

/-- Worker of `splitWhitespace`: `cur` is the piece being read, reversed, and `inSep` tells
whether the previous character belonged to a separator run. -/
def splitAux : List Char → List Char → Bool → List String
  | [], cur, _ => [String.mk cur.reverse]
  | c :: cs, cur, inSep =>
    if isJsWhitespace c then
      if inSep then splitAux cs [] true
      else String.mk cur.reverse :: splitAux cs [] true
    else splitAux cs (c :: cur) false

/-- The call `s.split(/\s+/)`: the pieces between maximal runs of whitespace, an empty piece
before a leading run and after a trailing one, and the single piece `""` for the empty string. -/
def splitWhitespace (s : String) : List String := splitAux s.toList [] false

/-- The call `s.replace(/\s+/g, r)`: every maximal run of whitespace becomes `r`. -/
def replaceWhitespaceRuns (s r : String) : String :=
  String.intercalate r (splitWhitespace s)

/-- ASCII lower-casing, the behaviour of `toLowerCase` on ASCII text. -/
def asciiLowerCase (s : String) : String := String.mk (s.toList.map Char.toLower)

/-- What the program relies on from the built-in `toLowerCase` when it compares with the
catalog: on ASCII text it is ASCII lower-casing. -/
def LowerCaseOnAscii (toLowerCase : String → String) : Prop :=
  ∀ s : String, (∀ c ∈ s.toList, c.toNat < 128) → toLowerCase s = asciiLowerCase s

/-- The map of `escapeHtml`: the replacement of one character. -/
def escapeChar (c : Char) : String :=
  if c = '&' then "&amp;"
  else if c = '<' then "&lt;"
  else if c = '>' then "&gt;"
  else if c = '"' then "&quot;"
  else if c = Char.ofNat 39 then "&#39;"
  else String.singleton c

/-- The function `escapeHtml`: `text.replace(/[&<>"']/g, char => map[char])`. -/
def escapeHtml (text : String) : String :=
  String.join (text.toList.map escapeChar)

/-- The character class `[a-z0-9]`. -/
def isLowerAlnum (c : Char) : Bool :=
  ('a' ≤ c && c ≤ 'z') || ('0' ≤ c && c ≤ '9')

/-- The function `normalizeQuery`: `text.toLowerCase().replace(/[^a-z0-9]/g, '')`. -/
def normalizeQuery (toLowerCase : String → String) (text : String) : String :=
  String.mk ((toLowerCase text).toList.filter isLowerAlnum)

/-- The characters `encodeURIComponent` leaves alone: `A-Z a-z 0-9 - _ . ! ~ * ' ( )`. -/
def isUriUnreserved (c : Char) : Bool :=
  c.isAlphanum || c = '-' || c = '_' || c = '.' || c = '!' || c = '~' || c = '*' ||
  c = Char.ofNat 39 || c = '(' || c = ')'

/-- The UTF-8 bytes of a character. -/
def utf8Bytes (c : Char) : List Nat :=
  let n := c.toNat
  if n < 0x80 then [n]
  else if n < 0x800 then [0xC0 + n / 0x40, 0x80 + n % 0x40]
  else if n < 0x10000 then [0xE0 + n / 0x1000, 0x80 + n / 0x40 % 0x40, 0x80 + n % 0x40]
  else [0xF0 + n / 0x40000, 0x80 + n / 0x1000 % 0x40, 0x80 + n / 0x40 % 0x40, 0x80 + n % 0x40]

/-- An upper-case hexadecimal digit. -/
def hexDigit (d : Nat) : Char :=
  if d < 10 then Char.ofNat (48 + d) else Char.ofNat (55 + d)

/-- The escape `%XX` of one byte. -/
def percentEncode (b : Nat) : List Char := ['%', hexDigit (b / 16), hexDigit (b % 16)]

/-- The built-in `encodeURIComponent`. -/
def encodeURIComponent (s : String) : String :=
  String.mk (s.toList.flatMap fun c =>
    if isUriUnreserved c then [c] else (utf8Bytes c).flatMap percentEncode)

/-! ## Data model -/

/-- One vendor product entry, with the fields the program reads. A field the object literal
does not carry (`inStock`, `isSearchLink` in the catalog) is `none`, that is `undefined`. -/
structure Part where
  name : String
  vendor : String
  price : JsValue
  originalPrice : JsValue
  discount : JsValue
  stock : Option String
  inStock : Option Bool
  url : String
  isSearchLink : Option Bool
  image : String
  deriving DecidableEq

/-- A vendor record of `VENDORS`. -/
structure Vendor where
  name : String
  searchUrl : String
  domain : String
  deriving DecidableEq

/-- The property names of the object `VENDORS`. -/
inductive VendorKey where
  | revrobotics | andymark | wcproducts | ctre | dekup
  deriving DecidableEq

/-- The object `VENDORS`, read by property name. -/
def VENDORS : VendorKey → Vendor
  | .revrobotics =>
    { name := "REV Robotics",
      searchUrl := "https://www.revrobotics.com/search/?q=",
      domain := "revrobotics.com" }
  | .andymark =>
    { name := "AndyMark",
      searchUrl := "https://www.andymark.com/search?q=",
      domain := "andymark.com" }
  | .wcproducts =>
    { name := "WCP (West Coast Products)",
      searchUrl := "https://www.wcproducts.com/search?q=",
      domain := "wcproducts.com" }
  | .ctre =>
    { name := "CTRE",
      searchUrl := "https://store.ctr-electronics.com/search?q=",
      domain := "ctr-electronics.com" }
  | .dekup =>
    { name := "Deküp Robotics",
      searchUrl := "https://www.dekuprobotics.com/search?q=",
      domain := "dekuprobotics.com" }

/-- The configured vendors, in the order of the object literal `VENDORS`. -/
def vendorKeys : List VendorKey :=
  [.revrobotics, .andymark, .wcproducts, .ctre, .dekup]

/-- The object `REAL_PARTS` as `Object.entries` lists it: own keys in insertion order. -/
def REAL_PARTS : List (String × List Part) := [
  ("neo motor", [
    { name := "NEO Brushless Motor",
      vendor := "REV Robotics",
      price := .number (.fin 50.00),
      originalPrice := .null,
      discount := .number (.fin 0),
      stock := some "in-stock",
      inStock := none,
      url := "https://www.revrobotics.com/rev-21-1650/",
      isSearchLink := none,
      image := "https://via.placeholder.com/400x300/2563eb/ffffff?text=REV+NEO" },
    { name := "NEO Brushless Motor",
      vendor := "AndyMark",
      price := .number (.fin 56.00),
      originalPrice := .null,
      discount := .number (.fin 0),
      stock := some "in-stock",
      inStock := none,
      url := "https://www.andymark.com/products/rev-neo-brushless-motor",
      isSearchLink := none,
      image := "https://via.placeholder.com/400x300/2563eb/ffffff?text=AndyMark+NEO" }
  ]),
  ("neo 550", [
    { name := "NEO 550 Brushless Motor",
      vendor := "REV Robotics",
      price := .number (.fin 30.00),
      originalPrice := .null,
      discount := .number (.fin 0),
      stock := some "in-stock",
      inStock := none,
      url := "https://www.revrobotics.com/rev-21-1651/",
      isSearchLink := none,
      image := "https://via.placeholder.com/400x300/2563eb/ffffff?text=REV+NEO+550" },
    { name := "NEO 550 Brushless Motor",
      vendor := "AndyMark",
      price := .number (.fin 34.99),
      originalPrice := .null,
      discount := .number (.fin 0),
      stock := some "in-stock",
      inStock := none,
      url := "https://andymark.com/products/neo-550-motor",
      isSearchLink := none,
      image := "https://via.placeholder.com/400x300/2563eb/ffffff?text=AndyMark+NEO+550" }
  ]),
  ("kraken", [
    { name := "Kraken X60 Brushless Motor",
      vendor := "WCP (West Coast Products)",
      price := .number (.fin 217.99),
      originalPrice := .null,
      discount := .number (.fin 0),
      stock := some "in-stock",
      inStock := none,
      url := "https://wcproducts.com/search?q=Kraken+X60",
      isSearchLink := none,
      image := "https://via.placeholder.com/400x300/2563eb/ffffff?text=WCP+Kraken+X60" },
    { name := "Kraken X60 Brushless Motor",
      vendor := "CTRE",
      price := .number (.fin 217.99),
      originalPrice := .null,
      discount := .number (.fin 0),
      stock := some "in-stock",
      inStock := none,
      url := "https://store.ctr-electronics.com/search?q=Kraken+X60",
      isSearchLink := none,
      image := "https://via.placeholder.com/400x300/2563eb/ffffff?text=CTRE+Kraken+X60" }
  ]),
  ("spark max", [
    { name := "SPARK MAX Motor Controller",
      vendor := "REV Robotics",
      price := .number (.fin 100.00),
      originalPrice := .null,
      discount := .number (.fin 0),
      stock := some "in-stock",
      inStock := none,
      url := "https://www.revrobotics.com/rev-11-2158/",
      isSearchLink := none,
      image := "https://via.placeholder.com/400x300/2563eb/ffffff?text=REV+SPARK+MAX" },
    { name := "SPARK MAX Motor Controller",
      vendor := "AndyMark",
      price := .number (.fin 105.00),
      originalPrice := .null,
      discount := .number (.fin 0),
      stock := some "in-stock",
      inStock := none,
      url := "https://www.andymark.com/products/spark-max-motor-controller",
      isSearchLink := none,
      image := "https://via.placeholder.com/400x300/2563eb/ffffff?text=AndyMark+SPARK+MAX" }
  ]),
  ("talon srx", [
    { name := "Talon SRX Motor Controller",
      vendor := "CTRE",
      price := .number (.fin 89.99),
      originalPrice := .null,
      discount := .number (.fin 0),
      stock := some "in-stock",
      inStock := none,
      url := "https://store.ctr-electronics.com/talon-srx/",
      isSearchLink := none,
      image := "https://via.placeholder.com/400x300/2563eb/ffffff?text=CTRE+Talon+SRX" }
  ]),
  ("limelight", [
    { name := "Limelight ",
      vendor := "Limelight",
      price := .number (.fin 400),
      originalPrice := .null,
      discount := .number (.fin 0),
      stock := some "Sold-out",
      inStock := none,
      url := "https://limelightvision.io/collections/products",
      isSearchLink := none,
      image := "https://via.placeholder.com/400x300/2563eb/ffffff?text=CTRE+Victor+SPX" }
  ]),
  ("victor spx", [
    { name := "Victor SPX Motor Controller",
      vendor := "CTRE",
      price := .number (.fin 49.99),
      originalPrice := .null,
      discount := .number (.fin 0),
      stock := some "Sold-out",
      inStock := none,
      url := "https://store.ctr-electronics.com/products/victor-spx?_pos=6&_sid=0a4a82977&_ss=r",
      isSearchLink := none,
      image := "https://via.placeholder.com/400x300/2563eb/ffffff?text=CTRE+Victor+SPX" }
  ]),
  ("cancoder", [
    { name := "CANcoder Magnetic Encoder",
      vendor := "CTRE",
      price := .number (.fin 60.00),
      originalPrice := .null,
      discount := .number (.fin 0),
      stock := some "in-stock",
      inStock := none,
      url := "https://store.ctr-electronics.com/search?q=CANcoder",
      isSearchLink := none,
      image := "https://via.placeholder.com/400x300/2563eb/ffffff?text=CTRE+CANcoder" },
    { name := "CANcoder Magnetic Encoder",
      vendor := "AndyMark",
      price := .number (.fin 60.00),
      originalPrice := .null,
      discount := .number (.fin 0),
      stock := some "in-stock",
      inStock := none,
      url := "https://andymark.com/products/cancoder-magnetic-encoder?_pos=1&_sid=ef5c4c00a&_ss=r",
      isSearchLink := none,
      image := "https://via.placeholder.com/400x300/2563eb/ffffff?text=AndyMark+CANcoder" }
  ]),
  ("roborio", [
    { name := "NI roboRIO 2.0",
      vendor := "AndyMark",
      price := .number (.fin 499.99),
      originalPrice := .null,
      discount := .number (.fin 0),
      stock := some "in-stock",
      inStock := none,
      url := "https://andymark.com/products/ni-roborio-2-0",
      isSearchLink := none,
      image := "https://via.placeholder.com/400x300/2563eb/ffffff?text=AndyMark+roboRIO" }
  ]),
  ("roborio 2", [
    { name := "NI roboRIO 2.0",
      vendor := "AndyMark",
      price := .number (.fin 499.99),
      originalPrice := .null,
      discount := .number (.fin 0),
      stock := some "in-stock",
      inStock := none,
      url := "https://andymark.com/products/ni-roborio-2-0",
      isSearchLink := none,
      image := "https://via.placeholder.com/400x300/2563eb/ffffff?text=AndyMark+roboRIO" }
  ]),
  ("roborio 2.0", [
    { name := "NI roboRIO 2.0",
      vendor := "AndyMark",
      price := .number (.fin 499.99),
      originalPrice := .null,
      discount := .number (.fin 0),
      stock := some "in-stock",
      inStock := none,
      url := "https://andymark.com/products/ni-roborio-2-0",
      isSearchLink := none,
      image := "https://via.placeholder.com/400x300/2563eb/ffffff?text=AndyMark+roboRIO" }
  ]),
  ("falcon", [
    { name := "Falcon 500 Brushless Motor",
      vendor := "CTRE",
      price := .number (.fin 219.99),
      originalPrice := .null,
      discount := .number (.fin 0),
      stock := some "in-stock",
      inStock := none,
      url := "https://store.ctr-electronics.com/falcon-500-powered-by-talon-fx/",
      isSearchLink := none,
      image := "https://via.placeholder.com/400x300/2563eb/ffffff?text=CTRE+Falcon+500" }
  ]),
  ("falcon 500", [
    { name := "Falcon 500 Brushless Motor",
      vendor := "CTRE",
      price := .number (.fin 219.99),
      originalPrice := .null,
      discount := .number (.fin 0),
      stock := some "in-stock",
      inStock := none,
      url := "https://store.ctr-electronics.com/falcon-500-powered-by-talon-fx/",
      isSearchLink := none,
      image := "https://via.placeholder.com/400x300/2563eb/ffffff?text=CTRE+Falcon+500" }
  ]),
  ("cim", [
    { name := "CIM Motor",
      vendor := "AndyMark",
      price := .number (.fin 29.00),
      originalPrice := .null,
      discount := .number (.fin 0),
      stock := some "in-stock",
      inStock := none,
      url := "https://www.andymark.com/products/2-5-in-cim-motor",
      isSearchLink := none,
      image := "https://via.placeholder.com/400x300/2563eb/ffffff?text=AndyMark+CIM" }
  ]),
  ("cim motor", [
    { name := "CIM Motor",
      vendor := "AndyMark",
      price := .number (.fin 29.00),
      originalPrice := .null,
      discount := .number (.fin 0),
      stock := some "in-stock",
      inStock := none,
      url := "https://www.andymark.com/products/2-5-in-cim-motor",
      isSearchLink := none,
      image := "https://via.placeholder.com/400x300/2563eb/ffffff?text=AndyMark+CIM" }
  ]),
  ("navx", [
    { name := "navX2-MXP Navigation Sensor",
      vendor := "AndyMark",
      price := .number (.fin 115.00),
      originalPrice := .null,
      discount := .number (.fin 0),
      stock := some "in-stock",
      inStock := none,
      url := "https://www.andymark.com/products/navx2-mxp-robotics-navigation-sensor",
      isSearchLink := none,
      image := "https://via.placeholder.com/400x300/2563eb/ffffff?text=AndyMark+navX" }
  ]),
  ("pigeon", [
    { name := "Pigeon 2.0 IMU",
      vendor := "CTRE",
      price := .number (.fin 199.99),
      originalPrice := .null,
      discount := .number (.fin 0),
      stock := some "in-stock",
      inStock := none,
      url := "https://store.ctr-electronics.com/pigeon-2/",
      isSearchLink := none,
      image := "https://via.placeholder.com/400x300/2563eb/ffffff?text=CTRE+Pigeon" },
    { name := "Pigeon 2.0 IMU",
      vendor := "AndyMark",
      price := .number (.fin 205.00),
      originalPrice := .null,
      discount := .number (.fin 0),
      stock := some "in-stock",
      inStock := none,
      url := "https://www.andymark.com/products/pigeon-2-0",
      isSearchLink := none,
      image := "https://via.placeholder.com/400x300/2563eb/ffffff?text=AndyMark+Pigeon" }
  ]),
  ("pdh", [
    { name := "REV Power Distribution Hub",
      vendor := "REV Robotics",
      price := .number (.fin 250.00),
      originalPrice := .null,
      discount := .number (.fin 0),
      stock := some "in-stock",
      inStock := none,
      url := "https://www.revrobotics.com/rev-11-1850/",
      isSearchLink := none,
      image := "https://via.placeholder.com/400x300/2563eb/ffffff?text=REV+PDH" },
    { name := "REV Power Distribution Hub",
      vendor := "AndyMark",
      price := .number (.fin 255.00),
      originalPrice := .null,
      discount := .number (.fin 0),
      stock := some "in-stock",
      inStock := none,
      url := "https://www.andymark.com/products/rev-power-distribution-hub",
      isSearchLink := none,
      image := "https://via.placeholder.com/400x300/2563eb/ffffff?text=AndyMark+PDH" }
  ]),
  ("battery", [
    { name := "MK ES17-12 12V SLA Battery (Set of 2)",
      vendor := "AndyMark",
      price := .number (.fin 87.00),
      originalPrice := .null,
      discount := .number (.fin 0),
      stock := some "in-stock",
      inStock := none,
      url := "https://andymark.com/products/mk-es17-12-12v-sla-battery-set-of-2",
      isSearchLink := none,
      image := "https://via.placeholder.com/400x300/2563eb/ffffff?text=FRC+Battery" }
  ]),
  ("mecanum", [
    { name := "4\" Mecanum Wheel Set",
      vendor := "AndyMark",
      price := .number (.fin 199.99),
      originalPrice := .null,
      discount := .number (.fin 0),
      stock := some "in-stock",
      inStock := none,
      url := "https://andymark.com/pages/search-results-page?q=mecanum%20wheel",
      isSearchLink := none,
      image := "https://via.placeholder.com/400x300/2563eb/ffffff?text=Mecanum+Wheels" },
    { name := "6\" Mecanum Wheel Set",
      vendor := "WCP (West Coast Products)",
      price := .number (.fin 249.99),
      originalPrice := .null,
      discount := .number (.fin 0),
      stock := some "in-stock",
      inStock := none,
      url := "https://wcproducts.com/products/mecanum-wheels",
      isSearchLink := none,
      image := "https://via.placeholder.com/400x300/2563eb/ffffff?text=WCP+Mecanum" }
  ]),
  ("mecanum wheel", [
    { name := "4\" Mecanum Wheel Set",
      vendor := "AndyMark",
      price := .number (.fin 199.99),
      originalPrice := .null,
      discount := .number (.fin 0),
      stock := some "in-stock",
      inStock := none,
      url := "https://andymark.com/pages/search-results-page?q=mecanum%20wheel",
      isSearchLink := none,
      image := "https://via.placeholder.com/400x300/2563eb/ffffff?text=Mecanum+Wheels" }
  ]),
  ("gearbox", [
    { name := "Toughbox Mini Gearbox",
      vendor := "AndyMark",
      price := .number (.fin 89.99),
      originalPrice := .null,
      discount := .number (.fin 0),
      stock := some "in-stock",
      inStock := none,
      url := "https://www.andymark.com/products/toughbox-mini",
      isSearchLink := none,
      image := "https://via.placeholder.com/400x300/2563eb/ffffff?text=Toughbox+Mini" },
    { name := "3 CIM Ball Shifter",
      vendor := "WCP (West Coast Products)",
      price := .number (.fin 249.99),
      originalPrice := .null,
      discount := .number (.fin 0),
      stock := some "in-stock",
      inStock := none,
      url := "https://wcproducts.com/products/3-cim-ball-shifter",
      isSearchLink := none,
      image := "https://via.placeholder.com/400x300/2563eb/ffffff?text=WCP+Gearbox" }
  ]),
  ("compressor", [
    { name := "VIAIR 90C Compressor",
      vendor := "AndyMark",
      price := .number (.fin 49.99),
      originalPrice := .null,
      discount := .number (.fin 0),
      stock := some "in-stock",
      inStock := none,
      url := "https://www.andymark.com/products/viair-90c-compressor",
      isSearchLink := none,
      image := "https://via.placeholder.com/400x300/2563eb/ffffff?text=Compressor" }
  ]),
  ("solenoid", [
    { name := "Single Acting Solenoid Valve",
      vendor := "AndyMark",
      price := .number (.fin 19.99),
      originalPrice := .null,
      discount := .number (.fin 0),
      stock := some "in-stock",
      inStock := none,
      url := "https://www.andymark.com/products/single-acting-solenoid-valve",
      isSearchLink := none,
      image := "https://via.placeholder.com/400x300/2563eb/ffffff?text=Solenoid" },
    { name := "Double Acting Solenoid Valve",
      vendor := "AndyMark",
      price := .number (.fin 29.99),
      originalPrice := .null,
      discount := .number (.fin 0),
      stock := some "in-stock",
      inStock := none,
      url := "https://www.andymark.com/products/double-acting-solenoid-valve",
      isSearchLink := none,
      image := "https://via.placeholder.com/400x300/2563eb/ffffff?text=Solenoid" }
  ]),
  ("neo vortex", [
    { name := "NEO Vortex Brushless Motor",
      vendor := "REV Robotics",
      price := .number (.fin 90.00),
      originalPrice := .null,
      discount := .number (.fin 0),
      stock := some "in-stock",
      inStock := none,
      url := "https://www.revrobotics.com/rev-21-1652/",
      isSearchLink := none,
      image := "https://via.placeholder.com/400x300/2563eb/ffffff?text=NEO+Vortex" }
  ]),
  ("vortex", [
    { name := "NEO Vortex Brushless Motor",
      vendor := "REV Robotics",
      price := .number (.fin 90.00),
      originalPrice := .null,
      discount := .number (.fin 0),
      stock := some "in-stock",
      inStock := none,
      url := "https://www.revrobotics.com/rev-21-1652/",
      isSearchLink := none,
      image := "https://via.placeholder.com/400x300/2563eb/ffffff?text=NEO+Vortex" }
  ]),
  ("spark flex", [
    { name := "SPARK Flex Motor Controller",
      vendor := "REV Robotics",
      price := .number (.fin 110.00),
      originalPrice := .null,
      discount := .number (.fin 0),
      stock := some "in-stock",
      inStock := none,
      url := "https://www.revrobotics.com/rev-11-2159/",
      isSearchLink := none,
      image := "https://via.placeholder.com/400x300/2563eb/ffffff?text=SPARK+Flex" }
  ]),
  ("through bore encoder", [
    { name := "REV Through Bore Encoder",
      vendor := "REV Robotics",
      price := .number (.fin 48.00),
      originalPrice := .null,
      discount := .number (.fin 0),
      stock := some "in-stock",
      inStock := none,
      url := "https://www.revrobotics.com/rev-11-1271/",
      isSearchLink := none,
      image := "https://via.placeholder.com/400x300/2563eb/ffffff?text=Through+Bore" }
  ]),
  ("neverest", [
    { name := "NeveRest Motor",
      vendor := "AndyMark",
      price := .number (.fin 12.80),
      originalPrice := .null,
      discount := .number (.fin 0),
      stock := some "in-stock",
      inStock := none,
      url := "https://www.andymark.com/products/neverest-series-motor-only",
      isSearchLink := none,
      image := "https://via.placeholder.com/400x300/2563eb/ffffff?text=NeveRest" }
  ]),
  ("swerve", [
    { name := "Swerve & Steer Module",
      vendor := "AndyMark",
      price := .number (.fin 238.00),
      originalPrice := .null,
      discount := .number (.fin 0),
      stock := some "in-stock",
      inStock := none,
      url := "https://www.andymark.com/products/swerve-and-steer",
      isSearchLink := none,
      image := "https://via.placeholder.com/400x300/2563eb/ffffff?text=Swerve+Module" }
  ]),
  ("cancoder standard", [
    { name := "CANcoder Magnetic Encoder (Standard)",
      vendor := "CTRE",
      price := .number (.fin 69.99),
      originalPrice := .null,
      discount := .number (.fin 0),
      stock := some "in-stock",
      inStock := none,
      url := "https://store.ctr-electronics.com/cancoder/",
      isSearchLink := none,
      image := "https://via.placeholder.com/400x300/2563eb/ffffff?text=CANcoder" }
  ]),
  ("cancoder wired", [
    { name := "CANcoder Magnetic Encoder (Wired)",
      vendor := "CTRE",
      price := .number (.fin 89.99),
      originalPrice := .null,
      discount := .number (.fin 0),
      stock := some "in-stock",
      inStock := none,
      url := "https://store.ctr-electronics.com/cancoder/",
      isSearchLink := none,
      image := "https://via.placeholder.com/400x300/2563eb/ffffff?text=CANcoder+Wired" }
  ])
]

/-! ## The matcher `generateMockResults` -/

/-- What `generateMockResults` can return: an array of entries, or, through the property
read `REAL_PARTS[queryLower]`, a member inherited from `Object.prototype`. -/
inductive JsResult where
  | array (parts : List Part) : JsResult
  | builtinFunction (length : Nat) : JsResult
  | objectPrototype : JsResult
  deriving DecidableEq

/-- The members of `Object.prototype`, which every object literal inherits: the accessor
`__proto__` yields the prototype itself, the others are functions, listed with their `length`. -/
def objectPrototypeMember (name : String) : Option JsResult :=
  if name = "__proto__" then some .objectPrototype
  else if name = "constructor" ∨ name = "hasOwnProperty" ∨ name = "isPrototypeOf" ∨
      name = "propertyIsEnumerable" ∨ name = "__lookupGetter__" ∨
      name = "__lookupSetter__" then some (.builtinFunction 1)
  else if name = "toString" ∨ name = "valueOf" ∨ name = "toLocaleString" then
    some (.builtinFunction 0)
  else if name = "__defineGetter__" ∨ name = "__defineSetter__" then
    some (.builtinFunction 2)
  else none

/-- The property read `REAL_PARTS[name]` when it is truthy: an own key first, then the
prototype chain. Every value found is an object or a function, hence truthy. -/
def realPartsGet (name : String) : Option JsResult :=
  match REAL_PARTS.lookup name with
  | some parts => some (.array parts)
  | none => objectPrototypeMember name

/-- The test `allQueryWordsMatch` of the word stage. -/
def allQueryWordsMatch (queryLower key : String) : Bool :=
  (splitWhitespace queryLower).all fun qWord =>
    (splitWhitespace key).any fun kWord => includes kWord qWord || includes qWord kWord

/-- The test of the substring stage: `queryLower.includes(key) || key.includes(queryLower)`. -/
def substringMatch (queryLower key : String) : Bool :=
  includes queryLower key || includes key queryLower

/-- The test of the normalized substring stage. -/
def normalizedSubstringMatch (toLowerCase : String → String) (normalizedQuery key : String) :
    Bool :=
  let normalizedKey := normalizeQuery toLowerCase key
  decide (normalizedKey.length > 2) &&
    (includes normalizedQuery normalizedKey || includes normalizedKey normalizedQuery)

/-- One element of the array `vendorFallbacks`. -/
structure VendorFallback where
  vendorKey : VendorKey
  price : JsNumber
  stock : String
  label : String

/-- The array `vendorFallbacks`. -/
def vendorFallbacks : List VendorFallback := [
  { vendorKey := .revrobotics, price := .fin 45.99, stock := "in-stock", label := "Search on REV" },
  { vendorKey := .andymark, price := .fin 52.99, stock := "limited-stock",
    label := "Search on AndyMark" },
  { vendorKey := .wcproducts, price := .fin 54.50, stock := "in-stock", label := "Search on WCP" },
  { vendorKey := .ctre, price := .fin 58.99, stock := "in-stock", label := "Search on CTRE" },
  { vendorKey := .dekup, price := .fin 0.0, stock := "in-stock", label := "Search on Deküp" }
]

/-- The entry the final `map` builds for one element of `vendorFallbacks`. -/
def fallbackEntry (query : String) (fallback : VendorFallback) : Part :=
  let vendor := VENDORS fallback.vendorKey
  { name := query,
    vendor := vendor.name,
    price := .number fallback.price,
    originalPrice := .null,
    discount := .number (.fin 0),
    stock := some fallback.stock,
    inStock := none,
    url := vendor.searchUrl ++ encodeURIComponent query,
    isSearchLink := some true,
    image := "https://via.placeholder.com/400x300/2563eb/ffffff?text=" ++
      replaceWhitespaceRuns fallback.label "+" }

/-- The generic results: `vendorFallbacks.map(...)`. -/
def genericResults (query : String) : List Part :=
  vendorFallbacks.map (fallbackEntry query)

/-- The `return` statement of `generateMockResults` that produced the result. -/
inductive Stage where
  | exact | normalizedExact | wordSubset | substring | normalizedSubstring | genericFallback
  deriving DecidableEq

/-- The body of `generateMockResults`, returning also which `return` statement was taken. -/
def resolve (toLowerCase : String → String) (query : String) : Stage × JsResult :=
  let queryLower := trim (toLowerCase query)
  let normalizedQuery := normalizeQuery toLowerCase queryLower
  match realPartsGet queryLower with
  | some value => (.exact, value)
  | none =>
  match REAL_PARTS.find? (fun entry => normalizeQuery toLowerCase entry.1 == normalizedQuery) with
  | some entry => (.normalizedExact, .array entry.2)
  | none =>
  match REAL_PARTS.find? (fun entry => allQueryWordsMatch queryLower entry.1) with
  | some entry => (.wordSubset, .array entry.2)
  | none =>
  match REAL_PARTS.find? (fun entry => substringMatch queryLower entry.1) with
  | some entry => (.substring, .array entry.2)
  | none =>
  match REAL_PARTS.find?
      (fun entry => normalizedSubstringMatch toLowerCase normalizedQuery entry.1) with
  | some entry => (.normalizedSubstring, .array entry.2)
  | none => (.genericFallback, .array (genericResults query))

/-- The function `generateMockResults`. -/
def generateMockResults (toLowerCase : String → String) (query : String) : JsResult :=
  (resolve toLowerCase query).2

/-! ## Rendering: `getSourceInfo`, `createPartCard`, `displayResults` -/

/-- The languages of the table `translations`. -/
inductive Language where
  | en | tr
  deriving DecidableEq

/-- The table `translations`, as the list of the own keys of each language. -/
def translations : Language → List (String × String)
  | .en => [
    ("title", "FRC Parts Finder"),
    ("subtitle", "Search FRC parts, compare prices, discover solutions"),
    ("subtitle-enhanced", "✨ Enhanced with real vendor integration (WCP, REV, AndyMark, CTRE)"),
    ("search-placeholder", "Please include brand + part (e.g., REV NEO, CTRE Kraken X60)"),
    ("search-button", "Search"),
    ("forum-title", "Chief Delphi - Known Issues & Discussions"),
    ("loading", "Searching FRC vendors..."),
    ("no-results", "No results found."),
    ("in-stock", "✓ In Stock"),
    ("out-of-stock", "✗ Out of Stock"),
    ("limited-stock", "⚠ Limited Stock"),
    ("view-product", "View Product"),
    ("best-price", "💰 Best Price"),
    ("results-found", "results found"),
    ("verified", "Verified"),
    ("live-data", "Live Data"),
    ("manual", "Manual"),
    ("replies", "replies"),
    ("views", "views")
  ]
  | .tr => [
    ("title", "FRC Parça Bulucu"),
    ("subtitle", "FRC parçalarını arayın, fiyatları karşılaştırın, çözümler keşfedin"),
    ("subtitle-enhanced", "✨ Gerçek satıcı entegrasyonu ile geliştirildi (WCP, REV, AndyMark, CTRE)"),
    ("search-placeholder", "Lütfen marka + parça adı girin (örn: REV NEO, CTRE Kraken X60)"),
    ("search-button", "Ara"),
    ("forum-title", "Chief Delphi - Bilinen Sorunlar & Tartışmalar"),
    ("loading", "FRC satıcıları aranıyor..."),
    ("no-results", "Sonuç bulunamadı."),
    ("in-stock", "✓ Stokta"),
    ("out-of-stock", "✗ Stokta Yok"),
    ("limited-stock", "⚠ Sınırlı Stok"),
    ("view-product", "Ürünü Görüntüle"),
    ("best-price", "💰 En İyi Fiyat"),
    ("results-found", "sonuç bulundu"),
    ("verified", "Doğrulanmış"),
    ("live-data", "Canlı Veri"),
    ("manual", "Manuel"),
    ("replies", "yanıt"),
    ("views", "görüntüleme")
  ]

/-- The read `translations[currentLanguage][key]`; `none` is `undefined`. -/
def translate (currentLanguage : Language) (key : String) : Option String :=
  (translations currentLanguage).lookup key

/-- The record `getSourceInfo` returns; a field is `none` when the value found has no such
property. -/
structure SourceInfo where
  name : Option String
  badge : Option String
  deriving DecidableEq

/-- The object `sourceMap` of `getSourceInfo`. -/
def sourceMap (currentLanguage : Language) : List (String × SourceInfo) := [
  ("database",
    { name := some "FRC Parts Database", badge := translate currentLanguage "verified" }),
  ("enhanced_search",
    { name := some "Enhanced Search", badge := translate currentLanguage "live-data" }),
  ("shopify",
    { name := some "Shopify Vendors", badge := translate currentLanguage "live-data" }),
  ("woocommerce",
    { name := some "WooCommerce Vendors", badge := translate currentLanguage "live-data" }),
  ("real_vendors",
    { name := some "Real FRC Vendors", badge := translate currentLanguage "live-data" }),
  ("real_vendor",
    { name := some "Real FRC Vendors", badge := translate currentLanguage "live-data" }),
  ("fallback",
    { name := some "Vendor Search Links", badge := translate currentLanguage "manual" })
]

/-- The function `getSourceInfo`: `sourceMap[source] || { name: 'Unknown Source', ... }`.
A member inherited from `Object.prototype` is truthy: a function has its own `name` and no
`badge`, the prototype object has neither. -/
def getSourceInfo (currentLanguage : Language) (source : String) : SourceInfo :=
  match (sourceMap currentLanguage).lookup source with
  | some info => info
  | none =>
    match objectPrototypeMember source with
    | some (.builtinFunction _) =>
      { name := some (if source = "constructor" then "Object" else source), badge := none }
    | some _ => { name := none, badge := none }
    | none => { name := some "Unknown Source", badge := some "Unknown" }

/-- The value of `stockText` in `createPartCard`. -/
inductive StockText where
  | text (label : String) : StockText
  | inherited : StockText
  | undefined : StockText
  deriving DecidableEq

/-- The content of the price block of a card. -/
inductive PriceHtml where
  | seeSite : PriceHtml
  | amount (priceValue : JsNumber) : PriceHtml
  | discounted (price originalPrice discount : JsValue) : PriceHtml
  deriving DecidableEq

/-- The part of a card that depends on the entry: the `cheapest` class with its best-price
badge, the stock class and text, the normalized price and the price block. The link markup is
not modelled. -/
structure PartCard where
  part : Part
  cheapest : Bool
  stockClass : String
  stockText : StockText
  priceValue : Option JsNumber
  priceHTML : PriceHtml
  deriving DecidableEq

/-- The old-format stock class: `part.stock || 'in-stock'`. -/
def oldStockClass (stock : Option String) : String :=
  match stock with
  | some s => if s = "" then "in-stock" else s
  | none => "in-stock"

/-- The old-format stock text: the read of the three-key object literal at `stockClass`. -/
def oldStockText (currentLanguage : Language) (stockClass : String) : StockText :=
  if stockClass = "in-stock" ∨ stockClass = "out-of-stock" ∨ stockClass = "limited-stock" then
    match translate currentLanguage stockClass with
    | some label => .text label
    | none => .undefined
  else
    match objectPrototypeMember stockClass with
    | some _ => .inherited
    | none => .undefined

/-- The price normalization of `createPartCard`: `null` when `Number(part.price)` is NaN
or `<= 0`. -/
def normalizedPrice (price : JsValue) : Option JsNumber :=
  let priceValue := Number price
  if priceValue.isNaN || priceValue.le JsNumber.zero then none else some priceValue

/-- The function `createPartCard`. -/
def createPartCard (currentLanguage : Language) (part : Part) (isCheapest : Bool) : PartCard :=
  let stockClass :=
    match part.inStock with
    | some inStock => if inStock then "in-stock" else "out-of-stock"
    | none => oldStockClass part.stock
  let stockText :=
    match part.inStock with
    | some inStock =>
      match translate currentLanguage (if inStock then "in-stock" else "out-of-stock") with
      | some label => StockText.text label
      | none => StockText.undefined
    | none => oldStockText currentLanguage (oldStockClass part.stock)
  let priceValue := normalizedPrice part.price
  let priceHTML :=
    match priceValue with
    | some value =>
      if part.originalPrice.truthy && value.truthy then
        PriceHtml.discounted part.price part.originalPrice part.discount
      else if value.truthy then PriceHtml.amount value else PriceHtml.seeSite
    | none => PriceHtml.seeSite
  { part := part, cheapest := isCheapest, stockClass := stockClass, stockText := stockText,
    priceValue := priceValue, priceHTML := priceHTML }

/-- The array `numericPrices` of `displayResults`. -/
def numericPrices (results : List Part) : List JsNumber :=
  (results.map fun part => Number part.price).filter
    fun price => !price.isNaN && price.gt JsNumber.zero

/-- The value `cheapestPrice` of `displayResults`; `none` is `null`. -/
def cheapestPrice (results : List Part) : Option JsNumber :=
  if (numericPrices results).length > 0 then some (mathMin (numericPrices results)) else none

/-- The flag `isCheapest` computed for one entry inside `results.forEach`. -/
def isCheapest (results : List Part) (part : Part) : Bool :=
  match cheapestPrice results with
  | some cheapest => (Number part.price).strictEq cheapest
  | none => false

/-- What `displayResults` puts into the results container. -/
inductive Display where
  | noResults (message : Option String) : Display
  | listing (sourceInfo : SourceInfo) (count : Nat) (cards : List PartCard) : Display
  deriving DecidableEq

/-- The function `displayResults`. -/
def displayResults (currentLanguage : Language) (results : List Part) (source : String) :
    Display :=
  if results.length = 0 then .noResults (translate currentLanguage "no-results")
  else
    .listing (getSourceInfo currentLanguage source) results.length
      (results.map fun part => createPartCard currentLanguage part (isCheapest results part))

/-- The cards of a display. -/
def Display.cards : Display → List PartCard
  | .noResults _ => []
  | .listing _ _ cards => cards

/-- The function `insertResultsNotice`: the notice element holds `message.trim()`. -/
def insertResultsNotice (message : String) : String := trim message

/-! ## The fallback resolver `searchParts` -/

/-- The notice of the empty-remote path when the local results hold a real product. -/
def localMatchNotice (searchQuery : String) : String :=
  "\n                        <strong>Local match:</strong> \"" ++
    escapeHtml searchQuery ++
    "\" için doğrulanmış ürünler veritabanından listelendi.\n                    "

/-- The notice of the empty-remote path when the local results are vendor search links. -/
def headsUpNotice (searchQuery : String) : String :=
  "\n                        <strong>Heads up:</strong> \"" ++
    escapeHtml searchQuery ++
    "\" canlı veritabanında yok. Akıllı satıcı arama linkleri gösteriliyor.\n                    "

/-- The notice of the failure path when the local results hold a real product. -/
def localVerifiedNotice (searchQuery : String) (isTimeout : Bool) : String :=
  "\n                    <strong>✓ Yerel Eşleşme:</strong> \"" ++
    escapeHtml searchQuery ++
    "\" için doğrulanmış ürünler gösteriliyor.\n                    " ++
    (if isTimeout then
      "<br><small>Backend yanıt vermedi ama yerel veritabanından sonuç bulundu.</small>"
    else "") ++
    "\n                "

/-- The notice of the failure path when the local results are vendor search links. -/
def vendorSearchNotice (searchQuery : String) (isTimeout isNetworkError : Bool) : String :=
  "\n                    <strong>ℹ️ Satıcı Arama:</strong> \"" ++
    escapeHtml searchQuery ++
    "\" için doğrudan satıcı arama linkleri gösteriliyor.\n                    " ++
    (if isTimeout then
      "<br><small>Backend timeout - otomatik olarak alternatif sonuçlar gösteriliyor.</small>"
    else "") ++
    "\n                    " ++
    (if isNetworkError then
      "<br><small>Backend bağlantısı yok - çevrimdışı mod aktif.</small>"
    else "") ++
    "\n                "

/-- A JavaScript error value, with the two properties the `catch` block reads. -/
structure JsError where
  name : String
  message : String
  deriving DecidableEq

/-- How the remote lookup ended. `failure` is everything that throws inside the `try` before
the results are read: the abort of the timeout, a transport error, a non-OK status, a body
that does not parse or is not an object. `success` carries `data.results` (`none` when it is
not an array; an entry of the array is `none` when it is `null`, and an entry that is an
object is the record of its fields) and `data.source` (`none` when absent). `stalled` is a
response whose headers arrived, so that `fetch` resolved and `clearTimeout` ran, and whose
body never completes: `await response.json()` never settles. -/
inductive RemoteOutcome where
  | failure (error : JsError) : RemoteOutcome
  | success (results : Option (List (Option Part))) (source : Option String) : RemoteOutcome
  | stalled : RemoteOutcome

/-- What the results container shows when `searchParts` ends. `sourceHeader` is the state in
which `displayResults` threw: the container was emptied and holds the source header only. -/
inductive View where
  | unchanged : View
  | cleared : View
  | sourceHeader (source : String) : View
  | remoteResults (results : List Part) (source : String) : View
  | localResults (fallbackResults : List Part) (fallbackSource : String) (notice : String) :
      View
  | hardError (message : String) : View
  deriving DecidableEq

/-- How the `async` function ends: `return false`, the bare `return`, a rejection, or never
(`pending`). -/
inductive Returned where
  | retFalse : Returned
  | retUndefined : Returned
  | rejected (error : JsError) : Returned
  | pending : Returned
  deriving DecidableEq

/-- The observable result of one call of `searchParts`. `guardWrites` lists the values
assigned to `window.isSearching` during the call, in order, and `isSearching` is the value of
the flag afterwards. -/
structure SearchOutcome where
  returned : Returned
  alert : Option String
  remoteAttempts : Nat
  matcherCalls : Nat
  forumSearched : Bool
  view : View
  guardWrites : List Bool
  isSearching : Bool
  deriving DecidableEq

/-- The value `hasRealProducts`, computed alike at both fallback sites. -/
def hasRealProducts (fallbackResults : List Part) : Bool :=
  fallbackResults.any fun part => !truthyFlag part.isSearchLink

/-- The value `fallbackSource`, computed alike at both fallback sites. -/
def fallbackSource (fallbackResults : List Part) : String :=
  if hasRealProducts fallbackResults then "database" else "fallback"

/-- The error raised by `fallbackResults.some(...)` when the value is not an array. -/
def someIsNotAFunction : JsError :=
  { name := "TypeError", message := "fallbackResults.some is not a function" }

/-- The error raised by `part.price` inside `displayResults` when the entry is `null`. -/
def nullEntryError : JsError :=
  { name := "TypeError", message := "Cannot read properties of null (reading 'price')" }

/-- The error raised by `translations[currentLanguage]['loading']` when `translations` has no
table for the current language. -/
def loadingReadError : JsError :=
  { name := "TypeError", message := "Cannot read properties of undefined (reading 'loading')" }

/-- The entries of a remote array when none of them is `null`; on `none` the read
`part.price` of `results.map(part => Number(part.price))` throws. -/
def entriesOf : List (Option Part) → Option (List Part)
  | [] => some []
  | none :: _ => none
  | some part :: rest => (entriesOf rest).map (part :: ·)

/-- The `catch` block of `searchParts`, followed by `finally` and the final `return false`.
`calls` counts the calls of `generateMockResults` made before, and `before` is what the
results container held when the error was thrown. -/
def catchBlock (toLowerCase : String → String) (searchQuery : String) (error : JsError)
    (calls : Nat) (before : View) : SearchOutcome :=
  let hardError : SearchOutcome :=
    { returned := .retFalse, alert := none, remoteAttempts := 1, matcherCalls := calls + 1,
      forumSearched := false, view := .hardError error.message, guardWrites := [true, false],
      isSearching := false }
  let thrown : SearchOutcome :=
    { returned := .rejected someIsNotAFunction, alert := none, remoteAttempts := 1,
      matcherCalls := calls + 1, forumSearched := false, view := before,
      guardWrites := [true, false], isSearching := false }
  match generateMockResults toLowerCase searchQuery with
  | .array fallbackResults =>
    if fallbackResults.length > 0 then
      let isTimeout := error.name = "AbortError"
      let isNetworkError := includes error.message "fetch"
      let noticeMessage :=
        if hasRealProducts fallbackResults then localVerifiedNotice searchQuery isTimeout
        else vendorSearchNotice searchQuery isTimeout isNetworkError
      { returned := .retFalse, alert := none, remoteAttempts := 1, matcherCalls := calls + 1,
        forumSearched := false,
        view := .localResults fallbackResults (fallbackSource fallbackResults)
          (insertResultsNotice noticeMessage),
        guardWrites := [true, false], isSearching := false }
    else hardError
  | .builtinFunction length => if length > 0 then thrown else hardError
  | .objectPrototype => hardError

/-- The value of `data.source || 'unknown'`: the empty string is falsy too. -/
def sourceOrUnknown (dataSource : Option String) : String :=
  match dataSource with
  | some s => if s = "" then "unknown" else s
  | none => "unknown"

/-- Whether the read `translations[currentLanguage]` yields a value: the table of 'en' or
'tr', or a member inherited from `Object.prototype`, on which the read of a text gives
`undefined` without throwing. For any other language the value is `undefined` and the read of
a text throws. -/
def translationsHas (currentLanguage : String) : Bool :=
  decide (currentLanguage = "en" ∨ currentLanguage = "tr") ||
    (objectPrototypeMember currentLanguage).isSome

/-- The function `searchParts`, on the module variable `currentLanguage`, the guard flag
`isSearching`, the value of the search input and the outcome of the remote lookup. The read
`translations[currentLanguage]['loading']` is made after the guard is set and before `try`:
it throws when `translations` has nothing for the current language. The page elements read by
`getElementById` are taken to exist. Inside `try`, `displayResults(results, source)` throws
when an entry is `null`. -/
def searchParts (toLowerCase : String → String) (currentLanguage : String)
    (isSearching : Bool) (inputValue : String) (remote : RemoteOutcome) : SearchOutcome :=
  let searchQuery := trim inputValue
  if searchQuery = "" then
    { returned := .retFalse, alert := some "Please enter a part name!", remoteAttempts := 0,
      matcherCalls := 0, forumSearched := false, view := .unchanged, guardWrites := [],
      isSearching := isSearching }
  else if isSearching then
    { returned := .retFalse, alert := none, remoteAttempts := 0, matcherCalls := 0,
      forumSearched := false, view := .unchanged, guardWrites := [],
      isSearching := isSearching }
  else
    if translationsHas currentLanguage = false then
      { returned := .rejected loadingReadError, alert := none, remoteAttempts := 0,
        matcherCalls := 0, forumSearched := false, view := .unchanged, guardWrites := [true],
        isSearching := true }
    else
    match remote with
    | .stalled =>
      { returned := .pending, alert := none, remoteAttempts := 1, matcherCalls := 0,
        forumSearched := false, view := .cleared, guardWrites := [true], isSearching := true }
    | .failure error => catchBlock toLowerCase searchQuery error 0 .cleared
    | .success dataResults dataSource =>
      let results := dataResults.getD []
      let source := sourceOrUnknown dataSource
      let shown (entries : List Part) : SearchOutcome :=
        { returned := .retFalse, alert := none, remoteAttempts := 1,
          matcherCalls := if results.length = 0 then 1 else 0, forumSearched := true,
          view := .remoteResults entries source, guardWrites := [true, false],
          isSearching := false }
      if results.length = 0 then
        match generateMockResults toLowerCase searchQuery with
        | .array fallbackResults =>
          if fallbackResults.length > 0 then
            { returned := .retUndefined, alert := none, remoteAttempts := 1,
              matcherCalls := 1, forumSearched := false,
              view := .localResults fallbackResults (fallbackSource fallbackResults)
                (insertResultsNotice
                  (if hasRealProducts fallbackResults then localMatchNotice searchQuery
                   else headsUpNotice searchQuery)),
              guardWrites := [true, false], isSearching := false }
          else shown []
        | .builtinFunction length =>
          if length > 0 then catchBlock toLowerCase searchQuery someIsNotAFunction 1 .cleared
          else shown []
        | .objectPrototype => shown []
      else
        match entriesOf results with
        | some entries => shown entries
        | none => catchBlock toLowerCase searchQuery nullEntryError 0 (.sourceHeader source)

/-! ## Definitions used to state the properties -/

/-- The filter of `numericPrices`: `!Number.isNaN(price) && price > 0`. -/
def usablePrice (price : JsNumber) : Bool :=
  !price.isNaN && price.gt JsNumber.zero

/-- An entry that carries only a price, for the examples of the ranking. -/
def pricedEntry (price : JsValue) : Part :=
  { name := "", vendor := "", price := price, originalPrice := .null, discount := .number (.fin 0),
    stock := none, inStock := none, url := "", isSearchLink := none, image := "" }

/-- The remote outcomes after which `searchParts` turns to the local matcher: a failure, or a
success whose results are empty, not an array, or hold a `null` entry. -/
def RemoteOutcome.needsFallback : RemoteOutcome → Bool
  | .failure _ => true
  | .success results _ =>
    decide ((results.getD []).length = 0) || decide (entriesOf (results.getD []) = none)
  | .stalled => false

/-- The names under which `Object.prototype` has a member. -/
def inheritedNames : List String :=
  ["__proto__", "constructor", "hasOwnProperty", "isPrototypeOf", "propertyIsEnumerable",
   "__lookupGetter__", "__lookupSetter__", "toString", "valueOf", "toLocaleString",
   "__defineGetter__", "__defineSetter__"]

/-- The precondition "no catalog key matches at any of the five catalog stages": for every key
of `REAL_PARTS`, the key differs from `queryLower` and the tests of the four loops all fail. -/
def noKeyMatches (toLowerCase : String → String) (query : String) : Bool :=
  let queryLower := trim (toLowerCase query)
  let normalizedQuery := normalizeQuery toLowerCase queryLower
  REAL_PARTS.all fun entry =>
    !(entry.1 == queryLower) &&
    !(normalizeQuery toLowerCase entry.1 == normalizedQuery) &&
    !allQueryWordsMatch queryLower entry.1 &&
    !substringMatch queryLower entry.1 &&
    !normalizedSubstringMatch toLowerCase normalizedQuery entry.1

/-- The five entities `escapeHtml` writes, without their leading `&`. -/
def entityTails : List (List Char) :=
  ["amp;".toList, "lt;".toList, "gt;".toList, "quot;".toList, "#39;".toList]

/-- Whether every `&` of a text is followed by the rest of one of the five entities. -/
def ampersandsBeginEntities : List Char → Bool
  | [] => true
  | c :: cs =>
    (c != '&' || entityTails.any fun tail => tail.isPrefixOf cs) && ampersandsBeginEntities cs

/-- The entries of the first catalog key, 'neo motor'. -/
def neoMotorEntries : List Part := (REAL_PARTS.lookup "neo motor").getD []

/-- Whether a price field holds a finite number above zero. -/
def isPositiveFinite : JsValue → Bool
  | .number (.fin x) => decide (0 < x)
  | _ => false

/-- The invariant "a finite number strictly greater than zero, or null" of a price field. -/
def isPositiveOrNull (price : JsValue) : Bool :=
  decide (price = .null) || isPositiveFinite price

/-- A remote entry that is a search link, for the examples of the source tag. -/
def searchLinkEntry : Part :=
  { name := "Kraken X60", vendor := "WCP", price := .number (.fin 217.99), originalPrice := .null,
    discount := .number (.fin 0), stock := some "in-stock", inStock := none,
    url := "https://www.wcproducts.com/search?q=kraken", isSearchLink := some true, image := "" }

/-- The variant of `resolve` whose substring stage tests only `queryLower.includes(key)`. -/
def resolveQueryIncludesKey (toLowerCase : String → String) (query : String) :
    Stage × JsResult :=
  let queryLower := trim (toLowerCase query)
  let normalizedQuery := normalizeQuery toLowerCase queryLower
  match realPartsGet queryLower with
  | some value => (.exact, value)
  | none =>
  match REAL_PARTS.find? (fun entry => normalizeQuery toLowerCase entry.1 == normalizedQuery) with
  | some entry => (.normalizedExact, .array entry.2)
  | none =>
  match REAL_PARTS.find? (fun entry => allQueryWordsMatch queryLower entry.1) with
  | some entry => (.wordSubset, .array entry.2)
  | none =>
  match REAL_PARTS.find? (fun entry => includes queryLower entry.1) with
  | some entry => (.substring, .array entry.2)
  | none =>
  match REAL_PARTS.find?
      (fun entry => normalizedSubstringMatch toLowerCase normalizedQuery entry.1) with
  | some entry => (.normalizedSubstring, .array entry.2)
  | none => (.genericFallback, .array (genericResults query))

/-- The variant of `generateMockResults` whose substring stage tests only
`queryLower.includes(key)`. -/
def generateMockResultsQueryIncludesKey (toLowerCase : String → String) (query : String) :
    JsResult :=
  (resolveQueryIncludesKey toLowerCase query).2

/-- The built-in `toLowerCase` on texts made of ASCII characters and of U+0130, the capital I
with dot above, which lower-cases to `i` followed by the combining dot U+0307. -/
def dottedLowerCase (s : String) : String :=
  String.mk (s.toList.flatMap fun c =>
    if c = Char.ofNat 0x130 then ['i', Char.ofNat 0x307] else [c.toLower])

/-! ## The built-ins on examples -/

theorem splitWhitespace_examples :
    splitWhitespace "a  b" = ["a", "b"] ∧ splitWhitespace " a " = ["", "a", ""] ∧
    splitWhitespace "" = [""] ∧ splitWhitespace "neo motor" = ["neo", "motor"] := by
  decide

theorem string_builtin_examples :
    trim "  KRAKEN \n" = "KRAKEN" ∧
    includes "cim motor" "m m" = true ∧ includes "cim" "" = true ∧
    includes "cim" "mc" = false ∧
    replaceWhitespaceRuns "Search on REV" "+" = "Search+on+REV" ∧
    encodeURIComponent "a b&ü" = "a%20b%26%C3%BC" ∧
    escapeHtml "<a href=\"x\">" = "&lt;a href=&quot;x&quot;&gt;" ∧
    normalizeQuery asciiLowerCase "Robo RIO 2.0" = "roborio20" := by
  decide

/-! ## Facts about the catalog -/

theorem lookup_of_mem : ∀ e ∈ REAL_PARTS, REAL_PARTS.lookup e.1 = some e.2 := by decide!

theorem entries_nonempty : ∀ e ∈ REAL_PARTS, e.2 ≠ [] := by decide!

theorem keys_ascii : ∀ e ∈ REAL_PARTS, ∀ c ∈ e.1.toList, c.toNat < 128 := by decide!

theorem normalized_keys_injective :
    ∀ e1 ∈ REAL_PARTS, ∀ e2 ∈ REAL_PARTS,
      normalizeQuery asciiLowerCase e1.1 = normalizeQuery asciiLowerCase e2.1 → e1 = e2 := by
  decide!

theorem inherited_not_normalized_key :
    ∀ n ∈ inheritedNames, ∀ e ∈ REAL_PARTS,
      normalizeQuery asciiLowerCase n ≠ normalizeQuery asciiLowerCase e.1 := by
  decide!

theorem inherited_ascii : ∀ n ∈ inheritedNames, ∀ c ∈ n.toList, c.toNat < 128 := by decide!

theorem lookup_some_mem {β : Type} (l : List (String × β)) (k : String) (v : β)
    (h : l.lookup k = some v) : (k, v) ∈ l := by
  induction l with
  | nil => simp [List.lookup] at h
  | cons hd tl ih =>
    obtain ⟨k', v'⟩ := hd
    by_cases hkk : k = k'
    · subst hkk
      simp [List.lookup] at h
      simp [h]
    · have hb : (k == k') = false := by simpa using hkk
      simp only [List.lookup, hb] at h
      exact List.mem_cons_of_mem _ (ih h)

theorem mem_inheritedNames {n : String} {v : JsResult}
    (h : objectPrototypeMember n = some v) : n ∈ inheritedNames := by
  unfold objectPrototypeMember at h
  simp only [inheritedNames, List.mem_cons]
  split_ifs at h with h1 h2 h3 h4
  · exact Or.inl h1
  · rcases h2 with h2 | h2 | h2 | h2 | h2 | h2 <;> simp [h2]
  · rcases h3 with h3 | h3 | h3 <;> simp [h3]
  · rcases h4 with h4 | h4 <;> simp [h4]

theorem member_not_array {n : String} {parts : List Part} :
    objectPrototypeMember n ≠ some (JsResult.array parts) := by
  unfold objectPrototypeMember
  split_ifs <;> simp

/-- The three ways `generateMockResults` ends: the entries of a catalog key, the generic
vendor results, or a member inherited from `Object.prototype`. -/
theorem generateMockResults_cases (toLowerCase : String → String) (q : String) :
    (∃ e ∈ REAL_PARTS, generateMockResults toLowerCase q = .array e.2) ∨
    ((resolve toLowerCase q).1 = .genericFallback ∧
      generateMockResults toLowerCase q = .array (genericResults q)) ∨
    (REAL_PARTS.lookup (trim (toLowerCase q)) = none ∧
      objectPrototypeMember (trim (toLowerCase q)) =
        some (generateMockResults toLowerCase q)) := by
  unfold generateMockResults resolve
  simp only
  cases hget : realPartsGet (trim (toLowerCase q)) with
  | some v =>
    simp only
    unfold realPartsGet at hget
    cases hl : REAL_PARTS.lookup (trim (toLowerCase q)) with
    | some parts =>
      rw [hl] at hget
      simp only [Option.some.injEq] at hget
      exact Or.inl ⟨_, lookup_some_mem _ _ _ hl, hget.symm⟩
    | none =>
      rw [hl] at hget
      exact Or.inr (Or.inr ⟨rfl, hget⟩)
  | none =>
    simp only
    split
    · next e he => exact Or.inl ⟨e, List.mem_of_find?_eq_some he, rfl⟩
    · split
      · next e he => exact Or.inl ⟨e, List.mem_of_find?_eq_some he, rfl⟩
      · split
        · next e he => exact Or.inl ⟨e, List.mem_of_find?_eq_some he, rfl⟩
        · split
          · next e he => exact Or.inl ⟨e, List.mem_of_find?_eq_some he, rfl⟩
          · exact Or.inr (Or.inl ⟨rfl, rfl⟩)

theorem genericResults_length (q : String) : (genericResults q).length = 5 := rfl

/-- Every array `generateMockResults` returns is non-empty. -/
theorem array_result_nonempty (toLowerCase : String → String) (q : String) (parts : List Part)
    (h : generateMockResults toLowerCase q = .array parts) : parts ≠ [] := by
  rcases generateMockResults_cases toLowerCase q with ⟨e, he, h1⟩ | ⟨_, h1⟩ | ⟨_, h1⟩
  · rw [h1] at h
    simp only [JsResult.array.injEq] at h
    exact h ▸ entries_nonempty e he
  · rw [h1] at h
    simp only [JsResult.array.injEq] at h
    intro hnil
    have := genericResults_length q
    rw [h, hnil] at this
    simp at this
  · rw [h] at h1
    exact absurd h1 member_not_array

/-- When `queryLower` names no member of `Object.prototype`, the result is a non-empty array. -/
theorem array_of_not_inherited (toLowerCase : String → String) (q : String)
    (h : objectPrototypeMember (trim (toLowerCase q)) = none) :
    ∃ parts, generateMockResults toLowerCase q = .array parts ∧ parts ≠ [] := by
  rcases generateMockResults_cases toLowerCase q with ⟨e, he, h1⟩ | ⟨_, h1⟩ | ⟨_, h1⟩
  · exact ⟨e.2, h1, entries_nonempty e he⟩
  · exact ⟨_, h1, array_result_nonempty toLowerCase q _ h1⟩
  · rw [h] at h1
    simp at h1

/-! ## The matcher -/

/-- C1: `generateMockResults` does not return a list of entries for every query. For the query
"constructor" the read `REAL_PARTS[queryLower]` finds the function `Object` on the prototype
chain and returns it; for "__proto__" it returns `Object.prototype`. -/
theorem generateMockResults_constructor :
    generateMockResults asciiLowerCase "constructor" = JsResult.builtinFunction 1 ∧
    generateMockResults asciiLowerCase "__proto__" = JsResult.objectPrototype ∧
    ∀ parts, generateMockResults asciiLowerCase "constructor" ≠ JsResult.array parts := by
  have h1 : generateMockResults asciiLowerCase "constructor" = JsResult.builtinFunction 1 := by
    decide!
  refine ⟨h1, by decide!, ?_⟩
  intro parts
  rw [h1]
  simp

/-- C2: when the lower-cased, trimmed query is the catalog key `k`, `generateMockResults`
returns the entries of `k`, from the exact-match `return` and from no later stage. -/
theorem exact_key_returns_entries (toLowerCase : String → String) (q k : String)
    (parts : List Part) (hk : (k, parts) ∈ REAL_PARTS) (hq : trim (toLowerCase q) = k) :
    resolve toLowerCase q = (Stage.exact, JsResult.array parts) ∧
    generateMockResults toLowerCase q = JsResult.array parts := by
  have hl : REAL_PARTS.lookup k = some parts := lookup_of_mem (k, parts) hk
  have hr : resolve toLowerCase q = (Stage.exact, JsResult.array parts) := by
    unfold resolve
    simp only [hq, realPartsGet, hl]
  exact ⟨hr, by rw [generateMockResults, hr]⟩

theorem exact_key_returns_entries_witness :
    ("kraken", (REAL_PARTS.lookup "kraken").getD []) ∈ REAL_PARTS ∧
    trim (asciiLowerCase "  KRAKEN ") = "kraken" ∧
    resolve asciiLowerCase "  KRAKEN " =
      (Stage.exact, JsResult.array ((REAL_PARTS.lookup "kraken").getD [])) ∧
    generateMockResults asciiLowerCase "  KRAKEN " =
      JsResult.array ((REAL_PARTS.lookup "kraken").getD []) :=
  ⟨by decide!, by decide!,
    exact_key_returns_entries asciiLowerCase "  KRAKEN " "kraken" _ (by decide!) (by decide!)⟩

theorem normalizeQuery_ascii (toLowerCase : String → String)
    (hlow : LowerCaseOnAscii toLowerCase) (s : String) (hs : ∀ c ∈ s.toList, c.toNat < 128) :
    normalizeQuery toLowerCase s = normalizeQuery asciiLowerCase s := by
  simp only [normalizeQuery, hlow s hs]

theorem asciiLowerCase_onAscii : LowerCaseOnAscii asciiLowerCase := fun _ _ => rfl

/-- The normalized-exact stage cannot be pre-empted: a query whose normalized form is that of
the key `k` returns the entries of `k`. -/
theorem normalized_match_result (toLowerCase : String → String)
    (hlow : LowerCaseOnAscii toLowerCase) (q k : String) (parts : List Part)
    (hk : (k, parts) ∈ REAL_PARTS)
    (hq : normalizeQuery toLowerCase (trim (toLowerCase q)) = normalizeQuery toLowerCase k) :
    generateMockResults toLowerCase q = JsResult.array parts := by
  have hkn := normalizeQuery_ascii toLowerCase hlow k (keys_ascii (k, parts) hk)
  rw [hkn] at hq
  unfold generateMockResults resolve
  simp only
  cases hget : realPartsGet (trim (toLowerCase q)) with
  | some v =>
    simp only
    unfold realPartsGet at hget
    cases hl : REAL_PARTS.lookup (trim (toLowerCase q)) with
    | some parts1 =>
      rw [hl] at hget
      simp only [Option.some.injEq] at hget
      have hmem := lookup_some_mem _ _ _ hl
      have hn := normalizeQuery_ascii toLowerCase hlow _ (keys_ascii _ hmem)
      rw [hn] at hq
      have heq := normalized_keys_injective _ hmem _ hk hq
      rw [← hget]
      simp only [Prod.mk.injEq] at heq
      rw [heq.2]
    | none =>
      rw [hl] at hget
      have hin := mem_inheritedNames hget
      have hn := normalizeQuery_ascii toLowerCase hlow _ (inherited_ascii _ hin)
      rw [hn] at hq
      exact absurd hq (inherited_not_normalized_key _ hin _ hk)
  | none =>
    simp only
    cases hfind : REAL_PARTS.find? (fun entry =>
        normalizeQuery toLowerCase entry.1 ==
          normalizeQuery toLowerCase (trim (toLowerCase q))) with
    | some e =>
      simp only
      have hmem := List.mem_of_find?_eq_some hfind
      have hp := List.find?_some hfind
      simp only [beq_iff_eq] at hp
      rw [normalizeQuery_ascii toLowerCase hlow _ (keys_ascii _ hmem), hq] at hp
      have heq := normalized_keys_injective _ hmem _ hk hp
      rw [heq]
    | none =>
      rw [List.find?_eq_none] at hfind
      have := hfind _ hk
      simp only [beq_iff_eq] at this
      rw [hkn, hq] at this
      exact absurd rfl this

/-- C3: a query whose normalized form equals that of a catalog key `k` gets the entries of
`k`; in particular "robo rio 2.0" gets the entries of the key "roborio 2.0". -/
theorem normalized_key_returns_entries (toLowerCase : String → String)
    (hlow : LowerCaseOnAscii toLowerCase) :
    (∀ (q k : String) (parts : List Part), (k, parts) ∈ REAL_PARTS →
      normalizeQuery toLowerCase (trim (toLowerCase q)) = normalizeQuery toLowerCase k →
      generateMockResults toLowerCase q = JsResult.array parts) ∧
    generateMockResults toLowerCase "robo rio 2.0" =
      JsResult.array ((REAL_PARTS.lookup "roborio 2.0").getD []) := by
  refine ⟨fun q k parts hk hq => normalized_match_result toLowerCase hlow q k parts hk hq, ?_⟩
  apply normalized_match_result toLowerCase hlow "robo rio 2.0" "roborio 2.0" _ (by decide!)
  rw [hlow "robo rio 2.0" (by decide!),
    normalizeQuery_ascii toLowerCase hlow _ (by decide!),
    normalizeQuery_ascii toLowerCase hlow "roborio 2.0" (by decide!)]
  decide!

theorem normalized_key_returns_entries_witness :
    LowerCaseOnAscii asciiLowerCase ∧
    generateMockResults asciiLowerCase "robo rio 2.0" =
      JsResult.array ((REAL_PARTS.lookup "roborio 2.0").getD []) ∧
    generateMockResults asciiLowerCase "Spark-Max" =
      JsResult.array ((REAL_PARTS.lookup "spark max").getD []) :=
  ⟨asciiLowerCase_onAscii,
    (normalized_key_returns_entries asciiLowerCase asciiLowerCase_onAscii).2,
    (normalized_key_returns_entries asciiLowerCase asciiLowerCase_onAscii).1
      "Spark-Max" "spark max" _ (by decide!) (by decide!)⟩

theorem resolve_genericFallback (toLowerCase : String → String) (q : String)
    (h : (resolve toLowerCase q).1 = Stage.genericFallback) :
    generateMockResults toLowerCase q = JsResult.array (genericResults q) := by
  unfold generateMockResults
  unfold resolve at h ⊢
  simp only at h ⊢
  split at h
  · simp at h
  · split at h
    · simp at h
    · split at h
      · simp at h
      · split at h
        · simp at h
        · split at h
          · simp at h
          · rfl

/-- When no key matches at any stage and `queryLower` names no member of
`Object.prototype`, the generic vendor results are returned. -/
theorem generic_of_noKeyMatches (toLowerCase : String → String) (q : String)
    (hno : noKeyMatches toLowerCase q = true)
    (hin : objectPrototypeMember (trim (toLowerCase q)) = none) :
    resolve toLowerCase q = (Stage.genericFallback, JsResult.array (genericResults q)) := by
  unfold noKeyMatches at hno
  simp only [List.all_eq_true, Bool.and_eq_true, Bool.not_eq_true'] at hno
  have hlook : REAL_PARTS.lookup (trim (toLowerCase q)) = none := by
    cases hl : REAL_PARTS.lookup (trim (toLowerCase q)) with
    | none => rfl
    | some parts =>
      have := (hno _ (lookup_some_mem _ _ _ hl)).1.1.1.1
      simp at this
  have h2 : REAL_PARTS.find? (fun entry =>
      normalizeQuery toLowerCase entry.1 ==
        normalizeQuery toLowerCase (trim (toLowerCase q))) = none := by
    rw [List.find?_eq_none]
    intro e he
    simp [(hno e he).1.1.1.2]
  have h3 : REAL_PARTS.find? (fun entry =>
      allQueryWordsMatch (trim (toLowerCase q)) entry.1) = none := by
    rw [List.find?_eq_none]
    intro e he
    simp [(hno e he).1.1.2]
  have h4 : REAL_PARTS.find? (fun entry =>
      substringMatch (trim (toLowerCase q)) entry.1) = none := by
    rw [List.find?_eq_none]
    intro e he
    simp [(hno e he).1.2]
  have h5 : REAL_PARTS.find? (fun entry =>
      normalizedSubstringMatch toLowerCase
        (normalizeQuery toLowerCase (trim (toLowerCase q))) entry.1) = none := by
    rw [List.find?_eq_none]
    intro e he
    simp [(hno e he).2]
  unfold resolve
  simp only [realPartsGet, hlook, hin, h2, h3, h4, h5]

/-- C4: a query that no catalog key matches at any stage does not always get the generic
vendor results. No key matches "constructor" at any of the five stages, yet the result is
the function `Object` inherited by `REAL_PARTS`, returned from the exact-match stage. At the
query "xyzzy-unobtainium-999" the five vendor entries are returned. -/
theorem constructor_misses_generic_fallback :
    noKeyMatches asciiLowerCase "constructor" = true ∧
    resolve asciiLowerCase "constructor" = (Stage.exact, JsResult.builtinFunction 1) ∧
    noKeyMatches asciiLowerCase "xyzzy-unobtainium-999" = true ∧
    resolve asciiLowerCase "xyzzy-unobtainium-999" =
      (Stage.genericFallback, JsResult.array (genericResults "xyzzy-unobtainium-999")) :=
  ⟨by decide!, by decide!, by decide!,
    generic_of_noKeyMatches asciiLowerCase "xyzzy-unobtainium-999" (by decide!) (by decide!)⟩

/-- C5: when `generateMockResults` reaches the generic vendor fallback, it returns one entry
per configured vendor, in the order of `VENDORS`, whose name is the query as passed in, whose
vendor is the vendor's name and whose url is the vendor's search url followed by
`encodeURIComponent(query)`. -/
theorem generic_fallback_entries (toLowerCase : String → String) (q : String)
    (h : (resolve toLowerCase q).1 = Stage.genericFallback) :
    ∃ parts, generateMockResults toLowerCase q = JsResult.array parts ∧
      parts.map (fun part => (part.name, part.vendor, part.url)) =
        vendorKeys.map (fun v =>
          (q, (VENDORS v).name, (VENDORS v).searchUrl ++ encodeURIComponent q)) :=
  ⟨genericResults q, resolve_genericFallback toLowerCase q h, rfl⟩

theorem generic_fallback_entries_witness :
    (resolve asciiLowerCase " Xyzzy 999 ").1 = Stage.genericFallback ∧
    ∃ parts, generateMockResults asciiLowerCase " Xyzzy 999 " = JsResult.array parts ∧
      parts.map (fun part => (part.name, part.vendor, part.url)) =
        vendorKeys.map (fun v =>
          (" Xyzzy 999 ", (VENDORS v).name,
            (VENDORS v).searchUrl ++ encodeURIComponent " Xyzzy 999 ")) :=
  ⟨by decide!, generic_fallback_entries asciiLowerCase " Xyzzy 999 " (by decide!)⟩

/-! ## Ranking and price normalization -/

namespace JsNumber

theorem le_refl_of_not_nan {a : JsNumber} (ha : a.isNaN = false) : a.le a = true := by
  cases a <;> simp_all [le, lt, strictEq, isNaN]

theorem le_trans_of {a b c : JsNumber} (hab : a.le b = true) (hbc : b.le c = true) :
    a.le c = true := by
  cases a <;> cases b <;> cases c <;> simp_all [le, lt, strictEq]
  rcases hab with h | h <;> rcases hbc with h' | h'
  · exact Or.inl (lt_trans h h')
  · exact Or.inl (h' ▸ h)
  · exact Or.inl (h ▸ h')
  · exact Or.inr (h.trans h')

theorem eq_of_le_of_le {a b : JsNumber} (hab : a.le b = true) (hba : b.le a = true) :
    a = b := by
  cases a <;> cases b <;> simp_all [le, lt, strictEq]
  rcases hab with h | h <;> rcases hba with h' | h'
  · exact absurd h (not_lt_of_lt h')
  · exact h'.symm
  · exact h
  · exact h

theorem le_of_not_lt {a b : JsNumber} (ha : a.isNaN = false) (hb : b.isNaN = false)
    (h : b.lt a = false) : a.le b = true := by
  cases a <;> cases b <;> simp_all [le, lt, strictEq, isNaN]
  exact lt_or_eq_of_le h

theorem le_of_lt {a b : JsNumber} (h : a.lt b = true) : a.le b = true := by
  simp [le, h]

theorem strictEq_self {a : JsNumber} (ha : a.isNaN = false) : a.strictEq a = true := by
  cases a <;> simp_all [strictEq, isNaN]

theorem eq_of_strictEq {a b : JsNumber} (h : a.strictEq b = true) : a = b := by
  cases a <;> cases b <;> simp_all [strictEq]

theorem not_nan_of_strictEq {a b : JsNumber} (h : a.strictEq b = true) : a.isNaN = false := by
  cases a <;> cases b <;> simp_all [strictEq, isNaN]

theorem gt_zero_eq_not_le {a : JsNumber} (ha : a.isNaN = false) :
    a.gt zero = !a.le zero := by
  cases a <;> simp_all [gt, le, lt, strictEq, isNaN, zero]
  rename_i q
  rcases lt_trichotomy q 0 with h | h | h
  · simp [h, not_lt_of_lt h]
  · simp [h]
  · simp [h, not_lt_of_lt h, ne_of_gt h]

theorem min2_not_nan {a b : JsNumber} (ha : a.isNaN = false) (hb : b.isNaN = false) :
    (min2 a b).isNaN = false := by
  unfold min2
  simp only [ha, hb, Bool.or_self, Bool.false_eq_true, if_false]
  split <;> assumption

theorem min2_le_left {a b : JsNumber} (ha : a.isNaN = false) (hb : b.isNaN = false) :
    (min2 a b).le a = true := by
  unfold min2
  simp only [ha, hb, Bool.or_self, Bool.false_eq_true, if_false]
  split
  · next h => exact le_of_lt h
  · exact le_refl_of_not_nan ha

theorem min2_le_right {a b : JsNumber} (ha : a.isNaN = false) (hb : b.isNaN = false) :
    (min2 a b).le b = true := by
  unfold min2
  simp only [ha, hb, Bool.or_self, Bool.false_eq_true, if_false]
  split
  · exact le_refl_of_not_nan hb
  · next h => exact le_of_not_lt ha hb (by simpa using h)

theorem min2_eq_or {a b : JsNumber} (ha : a.isNaN = false) (hb : b.isNaN = false) :
    min2 a b = a ∨ min2 a b = b := by
  unfold min2
  simp only [ha, hb, Bool.or_self, Bool.false_eq_true, if_false]
  split
  · exact Or.inr rfl
  · exact Or.inl rfl

theorem le_posInf {a : JsNumber} (ha : a.isNaN = false) : a.le posInf = true := by
  cases a <;> simp_all [le, lt, strictEq, isNaN]

end JsNumber

/-- The fold of `Math.min` over numbers that are not NaN: the result is below the start value
and every argument, and is the start value or one of the arguments. -/
theorem foldl_min2_spec (xs : List JsNumber) (acc : JsNumber) (hacc : acc.isNaN = false)
    (hxs : ∀ x ∈ xs, x.isNaN = false) :
    (xs.foldl JsNumber.min2 acc).isNaN = false ∧
    (xs.foldl JsNumber.min2 acc).le acc = true ∧
    (∀ x ∈ xs, (xs.foldl JsNumber.min2 acc).le x = true) ∧
    (xs.foldl JsNumber.min2 acc = acc ∨ xs.foldl JsNumber.min2 acc ∈ xs) := by
  induction xs generalizing acc with
  | nil => simp [hacc, JsNumber.le_refl_of_not_nan hacc]
  | cons y ys ih =>
    have hy : y.isNaN = false := hxs y (List.mem_cons_self _ _)
    have hys : ∀ x ∈ ys, x.isNaN = false := fun x hx => hxs x (List.mem_cons_of_mem _ hx)
    have hm := JsNumber.min2_not_nan hacc hy
    obtain ⟨h1, h2, h3, h4⟩ := ih (JsNumber.min2 acc y) hm hys
    simp only [List.foldl_cons]
    refine ⟨h1, JsNumber.le_trans_of h2 (JsNumber.min2_le_left hacc hy), ?_, ?_⟩
    · intro x hx
      rcases List.mem_cons.mp hx with rfl | hx
      · exact JsNumber.le_trans_of h2 (JsNumber.min2_le_right hacc hy)
      · exact h3 x hx
    · rcases h4 with h4 | h4
      · rcases JsNumber.min2_eq_or hacc hy with h5 | h5
        · exact Or.inl (h4.trans h5)
        · exact Or.inr (by rw [h4, h5]; exact List.mem_cons_self _ _)
      · exact Or.inr (List.mem_cons_of_mem _ h4)

/-- The value of `Math.min` on a non-empty list without NaN is a least element of the list. -/
theorem mathMin_spec (xs : List JsNumber) (hne : xs ≠ []) (hxs : ∀ x ∈ xs, x.isNaN = false) :
    mathMin xs ∈ xs ∧ ∀ x ∈ xs, (mathMin xs).le x = true := by
  obtain ⟨_, _, h3, h4⟩ := foldl_min2_spec xs JsNumber.posInf rfl hxs
  refine ⟨?_, h3⟩
  rcases h4 with h4 | h4
  · obtain ⟨y, hy⟩ := List.exists_mem_of_ne_nil xs hne
    have h5 := h3 y hy
    have h6 : y.le (xs.foldl JsNumber.min2 JsNumber.posInf) = true := by
      rw [h4]
      exact JsNumber.le_posInf (hxs y hy)
    have h7 : (xs.foldl JsNumber.min2 JsNumber.posInf) = y :=
      JsNumber.eq_of_le_of_le h5 h6
    rw [mathMin, h7]
    exact hy
  · exact h4

theorem mem_numericPrices (results : List Part) (x : JsNumber) :
    x ∈ numericPrices results ↔
      (∃ part ∈ results, Number part.price = x) ∧ usablePrice x = true := by
  simp [numericPrices, usablePrice, List.mem_filter, List.mem_map]

theorem usablePrice_not_nan {x : JsNumber} (h : usablePrice x = true) : x.isNaN = false := by
  simp only [usablePrice, Bool.and_eq_true, Bool.not_eq_true'] at h
  exact h.1

/-- A flagged entry has a usable price, and no usable price of the list is smaller. -/
theorem isCheapest_imp (results : List Part) (part : Part)
    (h : isCheapest results part = true) :
    usablePrice (Number part.price) = true ∧
    ∀ other ∈ results, usablePrice (Number other.price) = true →
      (Number part.price).le (Number other.price) = true := by
  have hnan : ∀ x ∈ numericPrices results, x.isNaN = false := fun x hx =>
    usablePrice_not_nan ((mem_numericPrices results x).mp hx).2
  unfold isCheapest cheapestPrice at h
  split at h
  · next cheapest hc =>
    split at hc
    · next hlen =>
      simp only [Option.some.injEq] at hc
      have hne : numericPrices results ≠ [] := by
        intro h0
        rw [h0] at hlen
        simp at hlen
      obtain ⟨hin, hle⟩ := mathMin_spec _ hne hnan
      have heq := JsNumber.eq_of_strictEq h
      rw [← hc] at heq
      rw [heq]
      refine ⟨((mem_numericPrices results _).mp hin).2, ?_⟩
      intro other ho hu
      exact hle _ ((mem_numericPrices results _).mpr ⟨⟨other, ho, rfl⟩, hu⟩)
    · simp at hc
  · simp at h

/-- The flag `isCheapest` of an entry of the list: its price is usable and no usable price of
the list is smaller. -/
theorem isCheapest_iff (results : List Part) (part : Part) (hmem : part ∈ results) :
    isCheapest results part = true ↔
      usablePrice (Number part.price) = true ∧
      ∀ other ∈ results, usablePrice (Number other.price) = true →
        (Number part.price).le (Number other.price) = true := by
  have hnan : ∀ x ∈ numericPrices results, x.isNaN = false := fun x hx =>
    usablePrice_not_nan ((mem_numericPrices results x).mp hx).2
  refine ⟨isCheapest_imp results part, ?_⟩
  rintro ⟨hu, hall⟩
  unfold isCheapest cheapestPrice
  have hin : Number part.price ∈ numericPrices results :=
    (mem_numericPrices results _).mpr ⟨⟨part, hmem, rfl⟩, hu⟩
  have hne : numericPrices results ≠ [] := List.ne_nil_of_mem hin
  have hlen : (numericPrices results).length > 0 := List.length_pos.mpr hne
  simp only [hlen, if_true]
  obtain ⟨hmin, hle⟩ := mathMin_spec _ hne hnan
  obtain ⟨⟨other, ho, hoe⟩, hou⟩ := (mem_numericPrices results _).mp hmin
  have h1 := hall other ho (hoe ▸ hou)
  rw [hoe] at h1
  have := JsNumber.eq_of_le_of_le h1 (hle _ hin)
  rw [← this]
  exact JsNumber.strictEq_self (usablePrice_not_nan hu)

theorem displayResults_cards (currentLanguage : Language) (results : List Part)
    (source : String) :
    (displayResults currentLanguage results source).cards =
      results.map fun part => createPartCard currentLanguage part (isCheapest results part) := by
  unfold displayResults
  split
  · next h =>
    have : results = [] := List.length_eq_zero.mp h
    simp [this, Display.cards]
  · rfl

theorem isCheapest_of_none_usable (results : List Part) (part : Part)
    (hall : ∀ other ∈ results, usablePrice (Number other.price) = false) :
    isCheapest results part = false := by
  have hnil : numericPrices results = [] := by
    rw [List.eq_nil_iff_forall_not_mem]
    intro x hx
    obtain ⟨⟨other, ho, hoe⟩, hu⟩ := (mem_numericPrices results x).mp hx
    rw [← hoe, hall other ho] at hu
    simp at hu
  simp [isCheapest, cheapestPrice, hnil]

/-- C6: in the cards `displayResults` builds, one per entry and in order, the card of an entry
carries the `cheapest` flag exactly when the numeric price of the entry is a number above zero
and no usable (numeric, above zero) price of the list is smaller. So every entry tied at the
minimum is flagged and none is when no price is usable. With prices 50 and 56 only the first
card is flagged, with prices 50, 50 and 56 the first two are. -/
theorem displayResults_cheapest_iff :
    (∀ (currentLanguage : Language) (results : List Part) (source : String),
      (displayResults currentLanguage results source).cards =
        results.map fun part =>
          createPartCard currentLanguage part (isCheapest results part)) ∧
    (∀ (results : List Part) (part : Part), part ∈ results →
      (isCheapest results part = true ↔
        usablePrice (Number part.price) = true ∧
        ∀ other ∈ results, usablePrice (Number other.price) = true →
          (Number part.price).le (Number other.price) = true)) ∧
    (∀ (results : List Part) (part : Part),
      (∀ other ∈ results, usablePrice (Number other.price) = false) →
        isCheapest results part = false) ∧
    (let results := [pricedEntry (.number (.fin 50.00)), pricedEntry (.number (.fin 56.00))]
     results.map (isCheapest results) = [true, false]) ∧
    (let results := [pricedEntry (.number (.fin 50.00)), pricedEntry (.number (.fin 50.00)),
        pricedEntry (.number (.fin 56.00))]
     results.map (isCheapest results) = [true, true, false]) ∧
    (∀ (currentLanguage : Language) (results : List Part) (source : String),
      (displayResults currentLanguage results source).cards.map
          (fun card => (card.part, card.cheapest)) =
        results.map fun part => (part, isCheapest results part)) ∧
    (∀ (currentLanguage : Language) (results : List Part) (source : String) (card : PartCard),
      card ∈ (displayResults currentLanguage results source).cards →
        card.part ∈ results ∧
        (card.cheapest = true ↔
          usablePrice (Number card.part.price) = true ∧
          ∀ other ∈ results, usablePrice (Number other.price) = true →
            (Number card.part.price).le (Number other.price) = true)) ∧
    (∀ (currentLanguage : Language) (results : List Part) (source : String),
      (∀ other ∈ results, usablePrice (Number other.price) = false) →
        ∀ card ∈ (displayResults currentLanguage results source).cards,
          card.cheapest = false) ∧
    ((displayResults Language.en
        [pricedEntry (.number (.fin 50.00)), pricedEntry (.number (.fin 56.00))]
        "database").cards.map (fun card => card.cheapest) = [true, false]) ∧
    ((displayResults Language.en
        [pricedEntry (.number (.fin 50.00)), pricedEntry (.number (.fin 50.00)),
          pricedEntry (.number (.fin 56.00))]
        "database").cards.map (fun card => card.cheapest) = [true, true, false]) := by
  refine ⟨displayResults_cards, isCheapest_iff, isCheapest_of_none_usable, by decide!,
    by decide!, ?_, ?_, ?_, by decide!, by decide!⟩
  · intro currentLanguage results source
    rw [displayResults_cards, List.map_map]
    rfl
  · intro currentLanguage results source card hc
    rw [displayResults_cards, List.mem_map] at hc
    obtain ⟨part, hp, rfl⟩ := hc
    exact ⟨hp, isCheapest_iff results part hp⟩
  · intro currentLanguage results source hall card hc
    rw [displayResults_cards, List.mem_map] at hc
    obtain ⟨part, _, rfl⟩ := hc
    exact isCheapest_of_none_usable results part hall

theorem displayResults_cheapest_iff_witness :
    (let results := (REAL_PARTS.lookup "neo motor").getD []
     results.map (isCheapest results) = [true, false]) ∧
    (isCheapest [pricedEntry (.number (.fin 50.00)), pricedEntry (.number (.fin 56.00))]
        (pricedEntry (.number (.fin 50.00))) = true ↔
      usablePrice (Number (pricedEntry (.number (.fin 50.00))).price) = true ∧
      ∀ other ∈ [pricedEntry (.number (.fin 50.00)), pricedEntry (.number (.fin 56.00))],
        usablePrice (Number other.price) = true →
          (Number (pricedEntry (.number (.fin 50.00))).price).le (Number other.price) = true) ∧
    ((createPartCard Language.en (pricedEntry (.number (.fin 50.00))) true).part ∈
        [pricedEntry (.number (.fin 50.00)), pricedEntry (.number (.fin 56.00))] ∧
      ((createPartCard Language.en (pricedEntry (.number (.fin 50.00))) true).cheapest = true ↔
        usablePrice (Number (createPartCard Language.en
          (pricedEntry (.number (.fin 50.00))) true).part.price) = true ∧
        ∀ other ∈ [pricedEntry (.number (.fin 50.00)), pricedEntry (.number (.fin 56.00))],
          usablePrice (Number other.price) = true →
            (Number (createPartCard Language.en
              (pricedEntry (.number (.fin 50.00))) true).part.price).le
                (Number other.price) = true)) :=
  ⟨by decide!, displayResults_cheapest_iff.2.1 _ _ (by decide!),
    displayResults_cheapest_iff.2.2.2.2.2.2.1 Language.en
      [pricedEntry (.number (.fin 50.00)), pricedEntry (.number (.fin 56.00))] "database"
      (createPartCard Language.en (pricedEntry (.number (.fin 50.00))) true) (by decide!)⟩

/-- The price of an entry is usable for the minimum exactly when `createPartCard` keeps it. -/
theorem usablePrice_eq_isSome (price : JsValue) :
    usablePrice (Number price) = (normalizedPrice price).isSome := by
  unfold usablePrice normalizedPrice
  simp only
  cases hn : (Number price).isNaN
  · rw [JsNumber.gt_zero_eq_not_le hn]
    cases (Number price).le JsNumber.zero <;> simp
  · simp

theorem normalizedPrice_eq_none_iff (price : JsValue) :
    normalizedPrice price = none ↔
      ((Number price).isNaN = true ∨ (Number price).le JsNumber.zero = true) := by
  unfold normalizedPrice
  simp only [Bool.or_eq_true]
  split <;> simp_all

theorem numericPrices_filter (results : List Part) :
    numericPrices (results.filter fun part => (normalizedPrice part.price).isSome) =
      numericPrices results := by
  induction results with
  | nil => rfl
  | cons p ps ih =>
    have hu := usablePrice_eq_isSome p.price
    unfold numericPrices at ih ⊢
    unfold usablePrice at hu
    cases hs : (normalizedPrice p.price).isSome
    · rw [hs] at hu
      simp only [List.filter_cons, hs, Bool.false_eq_true, if_false, List.map_cons, hu]
      exact ih
    · rw [hs] at hu
      simp only [List.filter_cons, hs, if_true, List.map_cons, hu]
      rw [ih]

/-- C7: `createPartCard` normalizes the price to `null`, shown as "See site", exactly when
`Number(price)` is NaN or `<= 0`, as for -5, NaN, `null` and the 0.0 of the Deküp fallback
entry; such an entry adds nothing to the prices the minimum is taken over and is never
flagged cheapest, whatever list it is displayed with. -/
theorem price_normalization :
    (∀ (currentLanguage : Language) (part : Part) (flag : Bool),
      ((createPartCard currentLanguage part flag).priceValue = none ↔
        ((Number part.price).isNaN = true ∨ (Number part.price).le JsNumber.zero = true)) ∧
      ((createPartCard currentLanguage part flag).priceHTML = PriceHtml.seeSite ↔
        (createPartCard currentLanguage part flag).priceValue = none)) ∧
    (∀ (results : List Part) (part : Part), normalizedPrice part.price = none →
      Number part.price ∉ numericPrices results ∧ isCheapest results part = false) ∧
    (∀ results : List Part,
      numericPrices (results.filter fun part => (normalizedPrice part.price).isSome) =
        numericPrices results) ∧
    normalizedPrice (.number (.fin (-5))) = none ∧
    normalizedPrice (.number .nan) = none ∧
    normalizedPrice .null = none ∧
    (∀ q : String, (genericResults q).map (fun part => (normalizedPrice part.price).isSome) =
      [true, true, true, true, false]) := by
  refine ⟨?_, ?_, numericPrices_filter, by decide!, by decide!, by decide!, ?_⟩
  · intro currentLanguage part flag
    refine ⟨normalizedPrice_eq_none_iff part.price, ?_⟩
    show (match normalizedPrice part.price with
      | some value =>
        if part.originalPrice.truthy && value.truthy then
          PriceHtml.discounted part.price part.originalPrice part.discount
        else if value.truthy then PriceHtml.amount value else PriceHtml.seeSite
      | none => PriceHtml.seeSite) = PriceHtml.seeSite ↔ normalizedPrice part.price = none
    cases hv : normalizedPrice part.price with
    | none => simp
    | some value =>
      have hpos : value.truthy = true := by
        unfold normalizedPrice at hv
        simp only at hv
        split at hv
        · simp at hv
        · next hc =>
          simp only [Option.some.injEq] at hv
          rw [← hv]
          simp only [Bool.or_eq_true, not_or, Bool.not_eq_true] at hc
          cases hnum : Number part.price with
          | nan => rw [hnum] at hc; simp [JsNumber.isNaN] at hc
          | negInf => rfl
          | posInf => rfl
          | fin q =>
            rw [hnum] at hc
            simp only [JsNumber.truthy, decide_eq_true_eq]
            intro hq
            rw [hq] at hc
            simp [JsNumber.le, JsNumber.lt, JsNumber.strictEq, JsNumber.zero] at hc
      simp only [hpos, Bool.and_true, if_true]
      split <;> simp
  · intro results part hnone
    have hu : usablePrice (Number part.price) = false := by
      rw [usablePrice_eq_isSome, hnone]
      rfl
    constructor
    · intro hin
      have := ((mem_numericPrices results _).mp hin).2
      rw [hu] at this
      simp at this
    · cases hc : isCheapest results part with
      | false => rfl
      | true =>
        have := (isCheapest_imp results part hc).1
        rw [hu] at this
        simp at this
  · intro q
    simp only [genericResults, vendorFallbacks, fallbackEntry, List.map_cons, List.map_nil]
    decide!

theorem price_normalization_witness :
    normalizedPrice (pricedEntry (.number (.fin (-5)))).price = none ∧
    Number (pricedEntry (.number (.fin (-5)))).price ∉
      numericPrices [pricedEntry (.number (.fin (-5))), pricedEntry (.number (.fin 56.00))] ∧
    isCheapest [pricedEntry (.number (.fin (-5))), pricedEntry (.number (.fin 56.00))]
      (pricedEntry (.number (.fin (-5)))) = false :=
  ⟨by decide!, price_normalization.2.1 _ _ (by decide!)⟩

/-! ## The fallback resolver -/

theorem hasRealProducts_iff (fallbackResults : List Part) :
    hasRealProducts fallbackResults = true ↔
      ∃ part ∈ fallbackResults, part.isSearchLink ≠ some true := by
  unfold hasRealProducts
  simp only [List.any_eq_true, Bool.not_eq_true']
  constructor
  · rintro ⟨part, hp, ht⟩
    refine ⟨part, hp, ?_⟩
    intro h
    rw [h] at ht
    simp [truthyFlag] at ht
  · rintro ⟨part, hp, ht⟩
    refine ⟨part, hp, ?_⟩
    cases hs : part.isSearchLink with
    | none => rfl
    | some b =>
      cases b
      · rfl
      · exact absurd hs ht

theorem fallbackSource_eq (fallbackResults : List Part) :
    fallbackSource fallbackResults =
      if ∃ part ∈ fallbackResults, part.isSearchLink ≠ some true then "database"
      else "fallback" := by
  unfold fallbackSource
  by_cases h : hasRealProducts fallbackResults = true
  · rw [if_pos h, if_pos ((hasRealProducts_iff _).mp h)]
  · rw [if_neg h, if_neg (fun hx => h ((hasRealProducts_iff _).mpr hx))]

/-- The `catch` block shows local results only as the array of the matcher, under its tag and
with one of its two notices. -/
theorem catchBlock_view (toLowerCase : String → String) (searchQuery : String)
    (error : JsError) (calls : Nat) (before : View) (fallbackResults : List Part)
    (tag notice : String)
    (hb : before = View.cleared ∨ ∃ source, before = View.sourceHeader source)
    (h : (catchBlock toLowerCase searchQuery error calls before).view =
      View.localResults fallbackResults tag notice) :
    generateMockResults toLowerCase searchQuery = JsResult.array fallbackResults ∧
    tag = fallbackSource fallbackResults ∧
    ((∃ isTimeout, notice = insertResultsNotice (localVerifiedNotice searchQuery isTimeout)) ∨
      (∃ isTimeout isNetworkError, notice =
        insertResultsNotice (vendorSearchNotice searchQuery isTimeout isNetworkError))) := by
  unfold catchBlock at h
  simp only at h
  split at h
  · next parts hg =>
    split at h
    · simp only [View.localResults.injEq] at h
      obtain ⟨h1, h2, h3⟩ := h
      subst h1
      refine ⟨hg, h2.symm, ?_⟩
      split at h3
      · exact Or.inl ⟨_, h3.symm⟩
      · exact Or.inr ⟨_, _, h3.symm⟩
    · simp at h
  · split at h
    · rcases hb with hb | ⟨source, hb⟩ <;> rw [hb] at h <;> simp at h
    · simp at h
  · simp at h

/-- The `catch` block, when the matcher returns an array: the array is shown under its tag. -/
theorem catchBlock_of_array (toLowerCase : String → String) (searchQuery : String)
    (error : JsError) (calls : Nat) (before : View) (fallbackResults : List Part)
    (h : generateMockResults toLowerCase searchQuery = JsResult.array fallbackResults) :
    ∃ notice, catchBlock toLowerCase searchQuery error calls before =
      { returned := .retFalse, alert := none, remoteAttempts := 1, matcherCalls := calls + 1,
        forumSearched := false,
        view := .localResults fallbackResults (fallbackSource fallbackResults) notice,
        guardWrites := [true, false], isSearching := false } := by
  have hne := array_result_nonempty toLowerCase searchQuery fallbackResults h
  have hlen : fallbackResults.length > 0 := List.length_pos.mpr hne
  unfold catchBlock
  simp only [h, hlen, if_true]
  exact ⟨_, rfl⟩

/-- Local results shown by `searchParts` are the array of the matcher under its tag, with one
of the four notices built on the trimmed input. -/
theorem searchParts_local (toLowerCase : String → String) (currentLanguage : String)
    (isSearching : Bool) (inputValue : String) (remote : RemoteOutcome) (results : List Part)
    (tag notice : String)
    (h : (searchParts toLowerCase currentLanguage isSearching inputValue remote).view =
      View.localResults results tag notice) :
    generateMockResults toLowerCase (trim inputValue) = JsResult.array results ∧
    tag = fallbackSource results ∧
    (notice = insertResultsNotice (localMatchNotice (trim inputValue)) ∨
      notice = insertResultsNotice (headsUpNotice (trim inputValue)) ∨
      (∃ isTimeout, notice =
        insertResultsNotice (localVerifiedNotice (trim inputValue) isTimeout)) ∨
      (∃ isTimeout isNetworkError, notice = insertResultsNotice
        (vendorSearchNotice (trim inputValue) isTimeout isNetworkError))) := by
  have hcatch : ∀ (error : JsError) (calls : Nat) (before : View),
      (before = View.cleared ∨ ∃ source, before = View.sourceHeader source) →
      (catchBlock toLowerCase (trim inputValue) error calls before).view =
        View.localResults results tag notice →
      generateMockResults toLowerCase (trim inputValue) = JsResult.array results ∧
      tag = fallbackSource results ∧
      (notice = insertResultsNotice (localMatchNotice (trim inputValue)) ∨
        notice = insertResultsNotice (headsUpNotice (trim inputValue)) ∨
        (∃ isTimeout, notice =
          insertResultsNotice (localVerifiedNotice (trim inputValue) isTimeout)) ∨
        (∃ isTimeout isNetworkError, notice = insertResultsNotice
          (vendorSearchNotice (trim inputValue) isTimeout isNetworkError))) := by
    intro error calls before hb hc
    obtain ⟨h1, h2, h3⟩ := catchBlock_view _ _ _ _ _ _ _ _ hb hc
    exact ⟨h1, h2, Or.inr (Or.inr h3)⟩
  unfold searchParts at h
  simp only at h
  split at h
  · simp at h
  · split at h
    · simp at h
    · split at h
      · simp at h
      · cases remote with
        | stalled => simp at h
        | failure error => exact hcatch _ _ _ (Or.inl rfl) h
        | success dataResults dataSource =>
          simp only at h
          split at h
          · split at h
            · next parts hg =>
              split at h
              · simp only [View.localResults.injEq] at h
                obtain ⟨h1, h2, h3⟩ := h
                subst h1
                refine ⟨hg, h2.symm, ?_⟩
                split at h3
                · exact Or.inl h3.symm
                · exact Or.inr (Or.inl h3.symm)
              · simp at h
            · split at h
              · exact hcatch _ _ _ (Or.inl rfl) h
              · simp at h
            · simp at h
          · split at h
            · simp at h
            · exact hcatch _ _ _ (Or.inr ⟨_, rfl⟩) h

/-- With a language `translations` has a value for and the guard free, both fallback paths
show the array of the matcher under its tag. -/
theorem searchParts_of_array (toLowerCase : String → String) (currentLanguage : String)
    (inputValue : String) (remote : RemoteOutcome) (fallbackResults : List Part)
    (hl : translationsHas currentLanguage = true)
    (hq : trim inputValue ≠ "") (hr : remote.needsFallback = true)
    (hg : generateMockResults toLowerCase (trim inputValue) = JsResult.array fallbackResults) :
    ∃ notice, (searchParts toLowerCase currentLanguage false inputValue remote).view =
        View.localResults fallbackResults (fallbackSource fallbackResults) notice ∧
      (searchParts toLowerCase currentLanguage false inputValue remote).returned ≠
        Returned.rejected someIsNotAFunction ∧
      (searchParts toLowerCase currentLanguage false inputValue remote).guardWrites =
        [true, false] := by
  have hne := array_result_nonempty toLowerCase _ fallbackResults hg
  have hlen : fallbackResults.length > 0 := List.length_pos.mpr hne
  unfold searchParts
  simp only [hq, hl, if_false, Bool.false_eq_true, Bool.true_eq_false]
  cases remote with
  | stalled => simp [RemoteOutcome.needsFallback] at hr
  | failure error =>
    obtain ⟨notice, hn⟩ := catchBlock_of_array toLowerCase _ error 0 .cleared fallbackResults hg
    exact ⟨notice, by simp only [hn], by simp [hn], by simp only [hn]⟩
  | success dataResults dataSource =>
    simp only
    by_cases hz : (dataResults.getD []).length = 0
    · simp only [hz, if_true, hg, hlen]
      exact ⟨_, rfl, by simp, by simp⟩
    · have hnull : entriesOf (dataResults.getD []) = none := by
        simpa [RemoteOutcome.needsFallback, hz] using hr
      simp only [hz, if_false, hnull]
      obtain ⟨notice, hn⟩ := catchBlock_of_array toLowerCase _ nullEntryError 0
        (.sourceHeader (sourceOrUnknown dataSource)) fallbackResults hg
      exact ⟨notice, by simp only [hn], by simp [hn], by simp only [hn]⟩

/-- C8: whenever `searchParts` shows local results, they are the array `generateMockResults`
returned, tagged 'database' if some entry has `isSearchLink` not true and 'fallback'
otherwise; and this is what is shown on the empty-remote path and on the remote-failure path
alike whenever the matcher returns an array. -/
theorem fallback_source_classification (toLowerCase : String → String) :
    (∀ (currentLanguage : String) (isSearching : Bool) (inputValue : String)
        (remote : RemoteOutcome) (fallbackResults : List Part) (tag notice : String),
      (searchParts toLowerCase currentLanguage isSearching inputValue remote).view =
          View.localResults fallbackResults tag notice →
        generateMockResults toLowerCase (trim inputValue) = JsResult.array fallbackResults ∧
        tag = (if ∃ part ∈ fallbackResults, part.isSearchLink ≠ some true then "database"
          else "fallback")) ∧
    (∀ (currentLanguage : String) (inputValue : String) (remote : RemoteOutcome)
        (fallbackResults : List Part),
      translationsHas currentLanguage = true →
      trim inputValue ≠ "" → remote.needsFallback = true →
      generateMockResults toLowerCase (trim inputValue) = JsResult.array fallbackResults →
        ∃ notice, (searchParts toLowerCase currentLanguage false inputValue remote).view =
          View.localResults fallbackResults
            (if ∃ part ∈ fallbackResults, part.isSearchLink ≠ some true then "database"
              else "fallback") notice) := by
  constructor
  · intro currentLanguage isSearching inputValue remote fallbackResults tag notice h
    rw [← fallbackSource_eq]
    obtain ⟨h1, h2, _⟩ := searchParts_local _ _ _ _ _ _ _ _ h
    exact ⟨h1, h2⟩
  · intro currentLanguage inputValue remote fallbackResults hl hq hr hg
    rw [← fallbackSource_eq]
    obtain ⟨notice, hn, _⟩ := searchParts_of_array toLowerCase currentLanguage inputValue remote
      fallbackResults hl hq hr hg
    exact ⟨notice, hn⟩

theorem fallback_source_classification_witness :
    (∃ notice, (searchParts asciiLowerCase "en" false "kraken"
        (.failure { name := "AbortError", message := "The user aborted a request." })).view =
      View.localResults ((REAL_PARTS.lookup "kraken").getD []) "database" notice) ∧
    (∃ notice, (searchParts asciiLowerCase "tr" false "xyzzy"
        (.success none none)).view =
      View.localResults (genericResults "xyzzy") "fallback" notice) ∧
    (∃ notice, (searchParts asciiLowerCase "en" false "xyzzy"
        (.success (some [none]) (some "shopify"))).view =
      View.localResults (genericResults "xyzzy") "fallback" notice) ∧
    (generateMockResults asciiLowerCase (trim "xyzzy") = JsResult.array (genericResults "xyzzy") ∧
      "fallback" = (if ∃ part ∈ genericResults "xyzzy", part.isSearchLink ≠ some true
        then "database" else "fallback")) :=
  ⟨(fallback_source_classification asciiLowerCase).2 "en" "kraken"
      (.failure { name := "AbortError", message := "The user aborted a request." })
      ((REAL_PARTS.lookup "kraken").getD []) (by decide) (by decide!) (by decide!) (by decide!),
    (fallback_source_classification asciiLowerCase).2 "tr" "xyzzy" (.success none none)
      (genericResults "xyzzy") (by decide) (by decide!) (by decide!) (by decide!),
    (fallback_source_classification asciiLowerCase).2 "en" "xyzzy"
      (.success (some [none]) (some "shopify"))
      (genericResults "xyzzy") (by decide) (by decide!) (by decide!) (by decide!),
    (fallback_source_classification asciiLowerCase).1 "en" false "xyzzy"
      (.success none none) (genericResults "xyzzy") "fallback"
      (insertResultsNotice (headsUpNotice "xyzzy")) (by decide!)⟩

/-- C9: the local fallback of `searchParts` is not shown for every query. With the remote
lookup failed, the query "__proto__" ends in the hard-error branch and the query
"constructor" makes `searchParts` throw a TypeError out of its `catch` block; with an empty
remote result, "constructor" throws as well and "__proto__" shows the empty remote list. -/
theorem fallback_fails_on_inherited_names :
    (searchParts asciiLowerCase "en" false "__proto__"
        (.failure { name := "TypeError", message := "Failed to fetch" })).view =
      View.hardError "Failed to fetch" ∧
    (searchParts asciiLowerCase "en" false "constructor"
        (.failure { name := "TypeError", message := "Failed to fetch" })).returned =
      Returned.rejected someIsNotAFunction ∧
    (searchParts asciiLowerCase "en" false "constructor"
        (.success (some []) none)).returned =
      Returned.rejected someIsNotAFunction ∧
    (searchParts asciiLowerCase "en" false "__proto__"
        (.success (some []) none)).view =
      View.remoteResults [] "unknown" := by
  refine ⟨by decide!, by decide!, by decide!, by decide!⟩

/-- Away from the names inherited from `Object.prototype`, every remote failure and every empty
remote result ends with the local results shown and `false` or nothing returned. -/
theorem local_fallback_shown (toLowerCase : String → String) (currentLanguage : String)
    (inputValue : String) (remote : RemoteOutcome)
    (hl : translationsHas currentLanguage = true) (hq : trim inputValue ≠ "")
    (hr : remote.needsFallback = true)
    (hin : objectPrototypeMember (trim (toLowerCase (trim inputValue))) = none) :
    ∃ fallbackResults notice,
      generateMockResults toLowerCase (trim inputValue) = JsResult.array fallbackResults ∧
      (searchParts toLowerCase currentLanguage false inputValue remote).view =
        View.localResults fallbackResults (fallbackSource fallbackResults) notice ∧
      (searchParts toLowerCase currentLanguage false inputValue remote).returned ≠
        Returned.rejected someIsNotAFunction := by
  obtain ⟨parts, hg, _⟩ := array_of_not_inherited toLowerCase (trim inputValue) hin
  obtain ⟨notice, h1, h2, _⟩ := searchParts_of_array toLowerCase currentLanguage inputValue
    remote parts hl hq hr hg
  exact ⟨parts, notice, hg, h1, h2⟩

theorem entriesOf_map_some (results : List Part) : entriesOf (results.map some) = some results := by
  induction results with
  | nil => rfl
  | cons p ps ih => simp [entriesOf, ih]

theorem entriesOf_of_mem_none (results : List (Option Part)) (h : none ∈ results) :
    entriesOf results = none := by
  induction results with
  | nil => simp at h
  | cons x xs ih =>
    cases x with
    | none => rfl
    | some p =>
      have hx : none ∈ xs := by simpa using h
      simp [entriesOf, ih hx]

/-- C10 (as stated, refuted): the remote lookup succeeds with the non-empty results array
`[null]` and the source 'shopify'; `displayResults` throws on the entry inside `try`, the
`catch` block calls `generateMockResults` and the local entries of 'kraken' are shown under
the tag 'database'. -/
theorem null_entry_shows_local_results :
    searchParts asciiLowerCase "en" false "kraken"
        (.success (some [none]) (some "shopify")) =
      { returned := .retFalse, alert := none, remoteAttempts := 1, matcherCalls := 1,
        forumSearched := false,
        view := .localResults ((REAL_PARTS.lookup "kraken").getD []) "database"
          (insertResultsNotice (localVerifiedNotice "kraken" false)),
        guardWrites := [true, false], isSearching := false } := by
  decide!

/-- C10 (amended): when the remote lookup succeeds with a non-empty results array none of
whose entries is `null`, `searchParts` shows exactly the remote results under the source tag
of the remote side, 'unknown' when it gives none, and `generateMockResults` is not called;
when an entry is `null`, the `catch` block runs instead and calls `generateMockResults`. -/
theorem remote_results_shown (toLowerCase : String → String) (currentLanguage : String)
    (inputValue : String) (hl : translationsHas currentLanguage = true)
    (hq : trim inputValue ≠ "") :
    (∀ (results : List Part) (dataSource : Option String), results ≠ [] →
      searchParts toLowerCase currentLanguage false inputValue
          (.success (some (results.map some)) dataSource) =
        { returned := .retFalse, alert := none, remoteAttempts := 1, matcherCalls := 0,
          forumSearched := true,
          view := .remoteResults results (sourceOrUnknown dataSource),
          guardWrites := [true, false], isSearching := false }) ∧
    (∀ (results : List (Option Part)) (dataSource : Option String), none ∈ results →
      searchParts toLowerCase currentLanguage false inputValue
          (.success (some results) dataSource) =
        catchBlock toLowerCase (trim inputValue) nullEntryError 0
          (.sourceHeader (sourceOrUnknown dataSource)) ∧
      (searchParts toLowerCase currentLanguage false inputValue
          (.success (some results) dataSource)).matcherCalls = 1) ∧
    sourceOrUnknown none = "unknown" ∧
    ∀ tag : String, tag ≠ "" → sourceOrUnknown (some tag) = tag := by
  refine ⟨?_, ?_, rfl, ?_⟩
  · intro results dataSource hne
    have hlen : ¬ (results.map some).length = 0 := by
      rw [List.length_map]
      exact fun h => hne (List.length_eq_zero.mp h)
    unfold searchParts
    simp only [hq, hl, if_false, Bool.false_eq_true, Bool.true_eq_false, Option.getD_some,
      hlen, entriesOf_map_some]
  · intro results dataSource hmem
    have hlen : ¬ results.length = 0 := fun h => by
      rw [List.length_eq_zero.mp h] at hmem
      simp at hmem
    have hs : searchParts toLowerCase currentLanguage false inputValue
          (.success (some results) dataSource) =
        catchBlock toLowerCase (trim inputValue) nullEntryError 0
          (.sourceHeader (sourceOrUnknown dataSource)) := by
      unfold searchParts
      simp only [hq, hl, if_false, Bool.false_eq_true, Bool.true_eq_false, Option.getD_some,
        hlen, entriesOf_of_mem_none results hmem]
    refine ⟨hs, ?_⟩
    rw [hs]
    unfold catchBlock
    simp only
    split
    · split <;> rfl
    · split <;> rfl
    · rfl
  · intro tag ht
    simp [sourceOrUnknown, ht]

theorem remote_results_shown_witness :
    searchParts asciiLowerCase "en" false " kraken "
        (.success (some [some (pricedEntry (.number (.fin 50.00)))]) (some "shopify")) =
      { returned := .retFalse, alert := none, remoteAttempts := 1, matcherCalls := 0,
        forumSearched := true,
        view := .remoteResults [pricedEntry (.number (.fin 50.00))] "shopify",
        guardWrites := [true, false], isSearching := false } ∧
    (searchParts asciiLowerCase "en" false " kraken "
        (.success (some [some (pricedEntry (.number (.fin 50.00))), none])
          (some "shopify"))).matcherCalls = 1 :=
  ⟨(remote_results_shown asciiLowerCase "en" " kraken " (by decide) (by decide!)).1
      [pricedEntry (.number (.fin 50.00))] (some "shopify") (by simp),
    ((remote_results_shown asciiLowerCase "en" " kraken " (by decide) (by decide!)).2.1
      [some (pricedEntry (.number (.fin 50.00))), none] (some "shopify") (by simp)).2⟩

/-! ## The guard and the validation of the query -/

theorem trim_eq_empty (s : String) (h : ∀ c ∈ s.toList, isJsWhitespace c = true) :
    trim s = "" := by
  have h1 : s.toList.dropWhile isJsWhitespace = [] := by
    rw [List.dropWhile_eq_nil_iff]
    exact h
  unfold trim
  rw [h1]
  rfl

/-- C11: for a query that is empty or holds only whitespace, `searchParts` returns at once
with the alert and `false`: no remote attempt, no call of `generateMockResults`, nothing
displayed, and the guard `isSearching` as it was, never written. -/
theorem empty_query_rejected (toLowerCase : String → String)
    (currentLanguage : String) (isSearching : Bool)
    (inputValue : String) (remote : RemoteOutcome)
    (h : ∀ c ∈ inputValue.toList, isJsWhitespace c = true) :
    searchParts toLowerCase currentLanguage isSearching inputValue remote =
      { returned := .retFalse, alert := some "Please enter a part name!", remoteAttempts := 0,
        matcherCalls := 0, forumSearched := false, view := .unchanged, guardWrites := [],
        isSearching := isSearching } := by
  unfold searchParts
  simp only [trim_eq_empty inputValue h, if_true]

theorem empty_query_rejected_witness :
    (searchParts asciiLowerCase "en" true " \t\n"
      (.success none none)).remoteAttempts = 0 ∧
    searchParts asciiLowerCase "de" false ""
        (.failure { name := "AbortError", message := "" }) =
      { returned := .retFalse, alert := some "Please enter a part name!", remoteAttempts := 0,
        matcherCalls := 0, forumSearched := false, view := .unchanged, guardWrites := [],
        isSearching := false } :=
  ⟨by rw [empty_query_rejected asciiLowerCase "en" true " \t\n" _ (by decide)],
    empty_query_rejected asciiLowerCase "de" false "" _ (by decide)⟩

/-- C12: a call of `searchParts` with a non-empty query while `isSearching` is true is
rejected: no remote attempt, no call of `generateMockResults`, nothing displayed, and the
guard stays set, never written. -/
theorem concurrent_search_rejected (toLowerCase : String → String)
    (currentLanguage : String) (inputValue : String)
    (remote : RemoteOutcome) (hq : trim inputValue ≠ "") :
    searchParts toLowerCase currentLanguage true inputValue remote =
      { returned := .retFalse, alert := none, remoteAttempts := 0, matcherCalls := 0,
        forumSearched := false, view := .unchanged, guardWrites := [],
        isSearching := true } := by
  unfold searchParts
  simp only [hq, if_false, if_true]

theorem concurrent_search_rejected_witness :
    searchParts asciiLowerCase "en" true "kraken" (.success none none) =
      { returned := .retFalse, alert := none, remoteAttempts := 0, matcherCalls := 0,
        forumSearched := false, view := .unchanged, guardWrites := [],
        isSearching := true } :=
  concurrent_search_rejected asciiLowerCase "en" "kraken" _ (by decide)

theorem catchBlock_releases (toLowerCase : String → String) (searchQuery : String)
    (error : JsError) (calls : Nat) (before : View) :
    (catchBlock toLowerCase searchQuery error calls before).guardWrites = [true, false] ∧
    (catchBlock toLowerCase searchQuery error calls before).isSearching = false := by
  unfold catchBlock
  simp only
  split
  · split <;> exact ⟨rfl, rfl⟩
  · split <;> exact ⟨rfl, rfl⟩
  · exact ⟨rfl, rfl⟩

/-- Once `try` is entered and the response completes, the guard is set and then released,
however the remote lookup ended and also when the `catch` block itself throws. -/
theorem guard_released_in_try (toLowerCase : String → String) (currentLanguage : String)
    (inputValue : String) (remote : RemoteOutcome)
    (hl : translationsHas currentLanguage = true) (hq : trim inputValue ≠ "")
    (hr : remote ≠ RemoteOutcome.stalled) :
    (searchParts toLowerCase currentLanguage false inputValue remote).guardWrites =
      [true, false] ∧
    (searchParts toLowerCase currentLanguage false inputValue remote).isSearching =
      false := by
  unfold searchParts
  simp only [hq, hl, if_false, Bool.false_eq_true, Bool.true_eq_false]
  cases remote with
  | stalled => exact absurd rfl hr
  | failure error => exact catchBlock_releases _ _ _ _ _
  | success dataResults dataSource =>
    simp only
    split
    · split
      · split <;> exact ⟨rfl, rfl⟩
      · split
        · exact catchBlock_releases _ _ _ _ _
        · exact ⟨rfl, rfl⟩
      · exact ⟨rfl, rfl⟩
    · split
      · exact ⟨rfl, rfl⟩
      · exact catchBlock_releases _ _ _ _ _

/-- C13: a call of `searchParts` that acquired the guard does not always release it. With a
current language that has no table in `translations`, the read of the 'loading' text throws
after `window.isSearching = true` and before `try`: the guard is written once, stays set, and
the next search is rejected. A response whose body never completes leaves the guard set as
well. With the language 'en' and a completed response the guard is set and released. -/
theorem guard_left_set_before_try :
    searchParts asciiLowerCase "de" false "kraken"
        (.failure { name := "TypeError", message := "Failed to fetch" }) =
      { returned := .rejected loadingReadError, alert := none, remoteAttempts := 0,
        matcherCalls := 0, forumSearched := false, view := .unchanged, guardWrites := [true],
        isSearching := true } ∧
    searchParts asciiLowerCase "de" true "kraken"
        (.failure { name := "TypeError", message := "Failed to fetch" }) =
      { returned := .retFalse, alert := none, remoteAttempts := 0, matcherCalls := 0,
        forumSearched := false, view := .unchanged, guardWrites := [], isSearching := true } ∧
    searchParts asciiLowerCase "en" false "kraken" RemoteOutcome.stalled =
      { returned := .pending, alert := none, remoteAttempts := 1, matcherCalls := 0,
        forumSearched := false, view := .cleared, guardWrites := [true],
        isSearching := true } ∧
    (searchParts asciiLowerCase "en" false "kraken"
        (.failure { name := "TypeError", message := "Failed to fetch" })).guardWrites =
      [true, false] := by
  refine ⟨by decide!, by decide!, by decide!, by decide!⟩

/-! ## `escapeHtml` and the notices -/

theorem escapeHtml_data (t : String) :
    (escapeHtml t).data = t.data.flatMap fun c => (escapeChar c).data := by
  unfold escapeHtml
  rw [String.data_join, List.map_map, List.flatMap]
  rfl

theorem escapeChar_cases (c : Char) :
    (c = '&' ∧ escapeChar c = "&amp;") ∨ (c = '<' ∧ escapeChar c = "&lt;") ∨
    (c = '>' ∧ escapeChar c = "&gt;") ∨ (c = '"' ∧ escapeChar c = "&quot;") ∨
    (c = Char.ofNat 39 ∧ escapeChar c = "&#39;") ∨
    ((c ≠ '&' ∧ c ≠ '<' ∧ c ≠ '>' ∧ c ≠ '"' ∧ c ≠ Char.ofNat 39) ∧
      escapeChar c = String.singleton c) := by
  unfold escapeChar
  by_cases h1 : c = '&'
  · exact Or.inl ⟨h1, by simp [h1]⟩
  by_cases h2 : c = '<'
  · exact Or.inr (Or.inl ⟨h2, by simp [h2]⟩)
  by_cases h3 : c = '>'
  · exact Or.inr (Or.inr (Or.inl ⟨h3, by simp [h3]⟩))
  by_cases h4 : c = '"'
  · exact Or.inr (Or.inr (Or.inr (Or.inl ⟨h4, by simp [h4]⟩)))
  by_cases h5 : c = Char.ofNat 39
  · exact Or.inr (Or.inr (Or.inr (Or.inr (Or.inl ⟨h5, by rw [h5]; decide⟩))))
  · exact Or.inr (Or.inr (Or.inr (Or.inr (Or.inr ⟨⟨h1, h2, h3, h4, h5⟩, by simp [h1, h2, h3, h4, h5]⟩))))

theorem escapeChar_no_markup (c d : Char) (hd : d ∈ (escapeChar c).data) :
    d ≠ '<' ∧ d ≠ '>' ∧ d ≠ '"' ∧ d ≠ Char.ofNat 39 := by
  rcases escapeChar_cases c with ⟨_, h⟩ | ⟨_, h⟩ | ⟨_, h⟩ | ⟨_, h⟩ | ⟨_, h⟩ | ⟨hc, h⟩
  all_goals rw [h] at hd
  · revert d; decide
  · revert d; decide
  · revert d; decide
  · revert d; decide
  · revert d; decide
  · have : d = c := by simpa [String.singleton] using hd
    rw [this]
    exact ⟨hc.2.1, hc.2.2.1, hc.2.2.2.1, hc.2.2.2.2⟩

theorem ampersands_escapeChar (c : Char) (rest : List Char)
    (h : ampersandsBeginEntities rest = true) :
    ampersandsBeginEntities ((escapeChar c).data ++ rest) = true := by
  rcases escapeChar_cases c with ⟨_, he⟩ | ⟨_, he⟩ | ⟨_, he⟩ | ⟨_, he⟩ | ⟨_, he⟩ | ⟨hc, he⟩
  all_goals rw [he]
  · simp [ampersandsBeginEntities, entityTails, h]
  · simp [ampersandsBeginEntities, entityTails, h]
  · simp [ampersandsBeginEntities, entityTails, h]
  · simp [ampersandsBeginEntities, entityTails, h]
  · simp [ampersandsBeginEntities, entityTails, h]
  · simp [String.singleton, ampersandsBeginEntities, h, hc.1]

theorem ampersands_escapeHtml (l : List Char) :
    ampersandsBeginEntities (l.flatMap fun c => (escapeChar c).data) = true := by
  induction l with
  | nil => rfl
  | cons c cs ih =>
    rw [List.flatMap_cons]
    exact ampersands_escapeChar c _ ih

theorem ampersands_spec (l : List Char) (h : ampersandsBeginEntities l = true)
    (before after : List Char) (hl : l = before ++ '&' :: after) :
    ∃ tail ∈ entityTails, tail <+: after := by
  induction before generalizing l with
  | nil =>
    rw [hl, List.nil_append] at h
    simp only [ampersandsBeginEntities, bne_self_eq_false, Bool.false_or, Bool.and_eq_true,
      List.any_eq_true] at h
    obtain ⟨⟨tail, ht, hp⟩, _⟩ := h
    exact ⟨tail, ht, List.isPrefixOf_iff_prefix.mp hp⟩
  | cons p ps ih =>
    rw [hl, List.cons_append] at h
    simp only [ampersandsBeginEntities, Bool.and_eq_true] at h
    exact ih _ h.2 rfl


theorem dropWhile_append_of_exists (p : Char → Bool) (a r : List Char)
    (ha : ∃ c ∈ a, p c = false) : (a ++ r).dropWhile p = a.dropWhile p ++ r := by
  induction a with
  | nil => simp at ha
  | cons x xs ih =>
    cases hx : p x
    · simp [List.dropWhile_cons, hx]
    · have hxs : ∃ c ∈ xs, p c = false := by
        obtain ⟨c, hc, hpc⟩ := ha
        rcases List.mem_cons.mp hc with rfl | hc
        · rw [hx] at hpc
          simp at hpc
        · exact ⟨c, hc, hpc⟩
      simp [List.dropWhile_cons, hx, ih hxs]

theorem exists_of_dropWhile_ne_nil (p : Char → Bool) (a : List Char)
    (ha : ∃ c ∈ a, p c = false) : ∃ c ∈ a.dropWhile p, p c = false := by
  induction a with
  | nil => simp at ha
  | cons x xs ih =>
    cases hx : p x
    · exact ⟨x, by simp [List.dropWhile_cons, hx], hx⟩
    · obtain ⟨c, hc, hpc⟩ := ha
      rcases List.mem_cons.mp hc with rfl | hc
      · rw [hx] at hpc
        simp at hpc
      · simpa [List.dropWhile_cons, hx] using ih ⟨c, hc, hpc⟩

/-- The trimming of a message `a ++ q ++ b` whose outer parts both hold a character that is
not whitespace only touches the outer parts. -/
theorem insertResultsNotice_wrap (a q b : String)
    (ha : ∃ c ∈ a.data, isJsWhitespace c = false)
    (hb : ∃ c ∈ b.data, isJsWhitespace c = false) :
    insertResultsNotice (a ++ q ++ b) =
      String.mk (a.data.dropWhile isJsWhitespace) ++ q ++
        String.mk (b.data.reverse.dropWhile isJsWhitespace).reverse := by
  have hb' : ∃ c ∈ b.data.reverse, isJsWhitespace c = false := by
    obtain ⟨c, hc, hpc⟩ := hb
    exact ⟨c, List.mem_reverse.mpr hc, hpc⟩
  unfold insertResultsNotice trim
  apply String.ext
  simp only [String.toList, String.data_append, List.append_assoc]
  rw [dropWhile_append_of_exists _ _ _ ha, List.reverse_append, List.reverse_append,
    List.append_assoc, dropWhile_append_of_exists _ _ _ hb']
  simp [List.reverse_append]

theorem localMatchNotice_shown (q : String) :
    insertResultsNotice (localMatchNotice q) =
      "<strong>Local match:</strong> \"" ++ escapeHtml q ++
        "\" için doğrulanmış ürünler veritabanından listelendi." := by
  unfold localMatchNotice
  rw [insertResultsNotice_wrap _ _ _ (by decide) (by decide)]
  rfl

theorem headsUpNotice_shown (q : String) :
    insertResultsNotice (headsUpNotice q) =
      "<strong>Heads up:</strong> \"" ++ escapeHtml q ++
        "\" canlı veritabanında yok. Akıllı satıcı arama linkleri gösteriliyor." := by
  unfold headsUpNotice
  rw [insertResultsNotice_wrap _ _ _ (by decide) (by decide)]
  rfl

theorem localVerifiedNotice_shown (q : String) (isTimeout : Bool) :
    insertResultsNotice (localVerifiedNotice q isTimeout) =
      "<strong>✓ Yerel Eşleşme:</strong> \"" ++ escapeHtml q ++
        (if isTimeout then
          "\" için doğrulanmış ürünler gösteriliyor.\n                    <br><small>Backend yanıt vermedi ama yerel veritabanından sonuç bulundu.</small>"
        else "\" için doğrulanmış ürünler gösteriliyor.") := by
  unfold localVerifiedNotice
  rw [String.append_assoc _ _ "\n                ", String.append_assoc _ _ ((if isTimeout = true then _ else _) ++ _)]
  cases isTimeout
  · rw [insertResultsNotice_wrap _ _ _ (by decide) (by decide)]
    rfl
  · rw [insertResultsNotice_wrap _ _ _ (by decide) (by decide)]
    rfl


theorem vendorSearchNotice_shown (isTimeout isNetworkError : Bool) :
    ∃ tail : String, ∀ q : String,
      insertResultsNotice (vendorSearchNotice q isTimeout isNetworkError) =
        "<strong>ℹ️ Satıcı Arama:</strong> \"" ++ escapeHtml q ++ tail := by
  cases isTimeout <;> cases isNetworkError
  · refine ⟨"\" için doğrudan satıcı arama linkleri gösteriliyor.",
      fun q => ?_⟩
    unfold vendorSearchNotice
    rw [String.append_assoc _ _ "\n                ", String.append_assoc _ _ (_ ++ _),
      String.append_assoc _ _ (_ ++ _), String.append_assoc _ _ (_ ++ _),
      insertResultsNotice_wrap _ _ _ (by decide) (by decide)]
    rfl
  · refine ⟨"\" için doğrudan satıcı arama linkleri gösteriliyor.\n                    \n                    <br><small>Backend bağlantısı yok - çevrimdışı mod aktif.</small>",
      fun q => ?_⟩
    unfold vendorSearchNotice
    rw [String.append_assoc _ _ "\n                ", String.append_assoc _ _ (_ ++ _),
      String.append_assoc _ _ (_ ++ _), String.append_assoc _ _ (_ ++ _),
      insertResultsNotice_wrap _ _ _ (by decide) (by decide)]
    rfl
  · refine ⟨"\" için doğrudan satıcı arama linkleri gösteriliyor.\n                    <br><small>Backend timeout - otomatik olarak alternatif sonuçlar gösteriliyor.</small>",
      fun q => ?_⟩
    unfold vendorSearchNotice
    rw [String.append_assoc _ _ "\n                ", String.append_assoc _ _ (_ ++ _),
      String.append_assoc _ _ (_ ++ _), String.append_assoc _ _ (_ ++ _),
      insertResultsNotice_wrap _ _ _ (by decide) (by decide)]
    rfl
  · refine ⟨"\" için doğrudan satıcı arama linkleri gösteriliyor.\n                    <br><small>Backend timeout - otomatik olarak alternatif sonuçlar gösteriliyor.</small>\n                    <br><small>Backend bağlantısı yok - çevrimdışı mod aktif.</small>",
      fun q => ?_⟩
    unfold vendorSearchNotice
    rw [String.append_assoc _ _ "\n                ", String.append_assoc _ _ (_ ++ _),
      String.append_assoc _ _ (_ ++ _), String.append_assoc _ _ (_ ++ _),
      insertResultsNotice_wrap _ _ _ (by decide) (by decide)]
    rfl

/-- The notice of a local result shown by `searchParts` is one of the four notices, built on
the trimmed input. -/
theorem searchParts_notice (toLowerCase : String → String) (currentLanguage : String)
    (isSearching : Bool) (inputValue : String) (remote : RemoteOutcome) (results : List Part)
    (tag notice : String)
    (h : (searchParts toLowerCase currentLanguage isSearching inputValue remote).view =
      View.localResults results tag notice) :
    notice = insertResultsNotice (localMatchNotice (trim inputValue)) ∨
    notice = insertResultsNotice (headsUpNotice (trim inputValue)) ∨
    (∃ isTimeout, notice =
      insertResultsNotice (localVerifiedNotice (trim inputValue) isTimeout)) ∨
    (∃ isTimeout isNetworkError, notice =
      insertResultsNotice (vendorSearchNotice (trim inputValue) isTimeout isNetworkError)) :=
  (searchParts_local _ _ _ _ _ _ _ _ h).2.2

/-- C14: `escapeHtml` replaces each of the five characters by its entity and copies every
other character, in order; so its output holds none of the characters `<`, `>`, the double
and the single quote, and every `&` of the output begins one of the five entities. Every
notice `searchParts` shows is a fixed text around `escapeHtml` of the trimmed query. -/
theorem escapeHtml_spec :
    (∀ t : String, escapeHtml t = String.join (t.toList.map fun c =>
      if c = '&' then "&amp;" else if c = '<' then "&lt;" else if c = '>' then "&gt;"
      else if c = '"' then "&quot;" else if c = Char.ofNat 39 then "&#39;"
      else String.singleton c)) ∧
    (∀ (t : String) (c : Char), c ∈ (escapeHtml t).toList →
      c ≠ '<' ∧ c ≠ '>' ∧ c ≠ '"' ∧ c ≠ Char.ofNat 39) ∧
    (∀ (t : String) (before after : List Char),
      (escapeHtml t).toList = before ++ '&' :: after →
        ∃ tail ∈ entityTails, tail <+: after) ∧
    (∀ q : String, insertResultsNotice (localMatchNotice q) =
      "<strong>Local match:</strong> \"" ++ escapeHtml q ++
        "\" için doğrulanmış ürünler veritabanından listelendi.") ∧
    (∀ q : String, insertResultsNotice (headsUpNotice q) =
      "<strong>Heads up:</strong> \"" ++ escapeHtml q ++
        "\" canlı veritabanında yok. Akıllı satıcı arama linkleri gösteriliyor.") ∧
    (∀ isTimeout : Bool, ∃ tail : String, ∀ q : String,
      insertResultsNotice (localVerifiedNotice q isTimeout) =
        "<strong>✓ Yerel Eşleşme:</strong> \"" ++ escapeHtml q ++ tail) ∧
    (∀ isTimeout isNetworkError : Bool, ∃ tail : String, ∀ q : String,
      insertResultsNotice (vendorSearchNotice q isTimeout isNetworkError) =
        "<strong>ℹ️ Satıcı Arama:</strong> \"" ++ escapeHtml q ++ tail) ∧
    (∀ (toLowerCase : String → String) (currentLanguage : String)
        (isSearching : Bool) (inputValue : String)
        (remote : RemoteOutcome) (results : List Part) (tag notice : String),
      (searchParts toLowerCase currentLanguage isSearching inputValue remote).view =
          View.localResults results tag notice →
        notice = insertResultsNotice (localMatchNotice (trim inputValue)) ∨
        notice = insertResultsNotice (headsUpNotice (trim inputValue)) ∨
        (∃ isTimeout, notice =
          insertResultsNotice (localVerifiedNotice (trim inputValue) isTimeout)) ∨
        (∃ isTimeout isNetworkError, notice = insertResultsNotice
          (vendorSearchNotice (trim inputValue) isTimeout isNetworkError))) := by
  refine ⟨fun t => rfl, ?_, ?_, localMatchNotice_shown, headsUpNotice_shown,
    fun isTimeout => ⟨_, fun q => localVerifiedNotice_shown q isTimeout⟩,
    vendorSearchNotice_shown, searchParts_notice⟩
  · intro t c hc
    rw [String.toList, escapeHtml_data, List.mem_flatMap] at hc
    obtain ⟨x, _, hx⟩ := hc
    exact escapeChar_no_markup x c hx
  · intro t before after h
    rw [String.toList, escapeHtml_data] at h
    exact ampersands_spec _ (ampersands_escapeHtml t.data) before after h

theorem escapeHtml_spec_witness :
    escapeHtml "<img src='x' onerror=\"a&b\">" =
      "&lt;img src=&#39;x&#39; onerror=&quot;a&amp;b&quot;&gt;" ∧
    (∃ tail ∈ entityTails, tail <+: "lt;b&gt;".toList) ∧
    (Char.ofNat 98 ≠ '<' ∧ Char.ofNat 98 ≠ '>' ∧ Char.ofNat 98 ≠ '"' ∧
      Char.ofNat 98 ≠ Char.ofNat 39) :=
  ⟨by decide, escapeHtml_spec.2.2.1 "<b>" [] "lt;b&gt;".toList (by decide),
    escapeHtml_spec.2.1 "<b>" (Char.ofNat 98) (by decide)⟩

/-! ## `normalizeQuery` -/

theorem isLowerAlnum_toNat {c : Char} (h : isLowerAlnum c = true) :
    (97 ≤ c.toNat ∧ c.toNat ≤ 122) ∨ (48 ≤ c.toNat ∧ c.toNat ≤ 57) := by
  simp only [isLowerAlnum, Bool.or_eq_true, Bool.and_eq_true, decide_eq_true_eq, Char.le_def,
    UInt32.le_def, Fin.le_def] at h
  exact h

theorem isLowerAlnum_iff (c : Char) :
    isLowerAlnum c = true ↔ (('a' ≤ c ∧ c ≤ 'z') ∨ ('0' ≤ c ∧ c ≤ '9')) := by
  simp [isLowerAlnum]

theorem toLower_of_isLowerAlnum {c : Char} (h : isLowerAlnum c = true) : c.toLower = c := by
  have := isLowerAlnum_toNat h
  unfold Char.toLower
  simp only
  rw [if_neg]
  omega

theorem asciiLowerCase_of_lowerAlnum (s : String)
    (h : ∀ c ∈ s.toList, isLowerAlnum c = true) : asciiLowerCase s = s := by
  unfold asciiLowerCase
  have : s.toList.map Char.toLower = s.toList := by
    conv_rhs => rw [← List.map_id s.toList]
    exact List.map_congr_left fun c hc => toLower_of_isLowerAlnum (h c hc)
  rw [this]
  rfl

theorem normalizeQuery_chars (toLowerCase : String → String) (s : String) :
    ∀ c ∈ (normalizeQuery toLowerCase s).toList, isLowerAlnum c = true := by
  intro c hc
  simp only [normalizeQuery, String.toList, List.mem_filter] at hc
  exact hc.2

/-- C15: `normalizeQuery(s)` is the lower-cased `s` without the characters outside `[a-z0-9]`,
the others kept in order; the function is total and its output holds only characters of
`[a-z0-9]`. -/
theorem normalizeQuery_spec (toLowerCase : String → String) (s : String) :
    (normalizeQuery toLowerCase s).toList =
      (toLowerCase s).toList.filter
        (fun c => decide (('a' ≤ c ∧ c ≤ 'z') ∨ ('0' ≤ c ∧ c ≤ '9'))) ∧
    (normalizeQuery toLowerCase s).toList.Sublist (toLowerCase s).toList ∧
    (∀ c ∈ (normalizeQuery toLowerCase s).toList,
      ('a' ≤ c ∧ c ≤ 'z') ∨ ('0' ≤ c ∧ c ≤ '9')) ∧
    (∀ c ∈ (toLowerCase s).toList, (('a' ≤ c ∧ c ≤ 'z') ∨ ('0' ≤ c ∧ c ≤ '9')) →
      c ∈ (normalizeQuery toLowerCase s).toList) := by
  have hf : (normalizeQuery toLowerCase s).toList =
      (toLowerCase s).toList.filter
        (fun c => decide (('a' ≤ c ∧ c ≤ 'z') ∨ ('0' ≤ c ∧ c ≤ '9'))) := by
    simp only [normalizeQuery, String.toList]
    apply List.filter_congr
    intro c _
    simp [isLowerAlnum]
  refine ⟨hf, ?_, ?_, ?_⟩
  · rw [hf]
    exact List.filter_sublist _
  · intro c hc
    exact (isLowerAlnum_iff c).mp (normalizeQuery_chars toLowerCase s c hc)
  · intro c hc hcl
    rw [hf, List.mem_filter]
    exact ⟨hc, by simpa using hcl⟩

theorem normalizeQuery_spec_witness :
    normalizeQuery asciiLowerCase "Robo-RIO 2.0 ü" = "roborio20" ∧
    (('a' ≤ 'r' ∧ 'r' ≤ 'z') ∨ ('0' ≤ 'r' ∧ 'r' ≤ '9')) ∧
    'r' ∈ (normalizeQuery asciiLowerCase "Robo-RIO 2.0 ü").toList :=
  ⟨by decide,
    (normalizeQuery_spec asciiLowerCase "Robo-RIO 2.0 ü").2.2.1 'r' (by decide),
    (normalizeQuery_spec asciiLowerCase "Robo-RIO 2.0 ü").2.2.2 'r' (by decide) (by decide)⟩

theorem normalizeQuery_fixed (toLowerCase : String → String)
    (hlow : LowerCaseOnAscii toLowerCase) (s : String)
    (h : ∀ c ∈ s.toList, isLowerAlnum c = true) : normalizeQuery toLowerCase s = s := by
  have hascii : ∀ c ∈ s.toList, c.toNat < 128 := by
    intro c hc
    have := isLowerAlnum_toNat (h c hc)
    omega
  unfold normalizeQuery
  rw [hlow s hascii, asciiLowerCase_of_lowerAlnum s h]
  have : s.toList.filter isLowerAlnum = s.toList := List.filter_eq_self.mpr h
  rw [this]
  rfl

/-- C16: `normalizeQuery` is idempotent, for every `toLowerCase` that is ASCII lower-casing on
ASCII text. -/
theorem normalizeQuery_idempotent (toLowerCase : String → String)
    (hlow : LowerCaseOnAscii toLowerCase) (s : String) :
    normalizeQuery toLowerCase (normalizeQuery toLowerCase s) = normalizeQuery toLowerCase s :=
  normalizeQuery_fixed toLowerCase hlow _ (normalizeQuery_chars toLowerCase s)

theorem normalizeQuery_idempotent_witness :
    LowerCaseOnAscii asciiLowerCase ∧
    normalizeQuery asciiLowerCase "Robo-RIO 2.0" = "roborio20" ∧
    normalizeQuery asciiLowerCase (normalizeQuery asciiLowerCase "Robo-RIO 2.0") =
      normalizeQuery asciiLowerCase "Robo-RIO 2.0" :=
  ⟨asciiLowerCase_onAscii, by decide,
    normalizeQuery_idempotent asciiLowerCase asciiLowerCase_onAscii "Robo-RIO 2.0"⟩

/-! ## Source tags and prices of the results -/

theorem catalog_no_search_link : ∀ e ∈ REAL_PARTS, ∀ p ∈ e.2, p.isSearchLink = none := by
  decide!

theorem catalog_prices_positive :
    ∀ e ∈ REAL_PARTS, ∀ p ∈ e.2, isPositiveFinite p.price = true := by
  decide!

theorem hasRealProducts_genericResults (q : String) :
    hasRealProducts (genericResults q) = false := by
  simp [hasRealProducts, genericResults, vendorFallbacks, fallbackEntry, truthyFlag]

/-- Local results shown by `searchParts` are the array of the matcher under its tag. -/
theorem searchParts_localResults (toLowerCase : String → String)
    (currentLanguage : String) (isSearching : Bool)
    (inputValue : String) (remote : RemoteOutcome) (results : List Part) (tag notice : String)
    (h : (searchParts toLowerCase currentLanguage isSearching inputValue remote).view =
      View.localResults results tag notice) :
    generateMockResults toLowerCase (trim inputValue) = JsResult.array results ∧
    tag = fallbackSource results :=
  ⟨(searchParts_local _ _ _ _ _ _ _ _ h).1, (searchParts_local _ _ _ _ _ _ _ _ h).2.1⟩

theorem verified_badge_iff (currentLanguage : Language) (tag : String) :
    (getSourceInfo currentLanguage tag).badge = translate currentLanguage "verified" ↔
      tag = "database" := by
  constructor
  · intro h
    by_contra hne
    by_cases h1 : tag = "enhanced_search"
    · subst h1; cases currentLanguage <;> revert h <;> decide
    by_cases h2 : tag = "shopify"
    · subst h2; cases currentLanguage <;> revert h <;> decide
    by_cases h3 : tag = "woocommerce"
    · subst h3; cases currentLanguage <;> revert h <;> decide
    by_cases h4 : tag = "real_vendors"
    · subst h4; cases currentLanguage <;> revert h <;> decide
    by_cases h5 : tag = "real_vendor"
    · subst h5; cases currentLanguage <;> revert h <;> decide
    by_cases h6 : tag = "fallback"
    · subst h6; cases currentLanguage <;> revert h <;> decide
    have hl : (sourceMap currentLanguage).lookup tag = none := by
      have b0 : (tag == "database") = false := beq_eq_false_iff_ne.mpr hne
      have b1 : (tag == "enhanced_search") = false := beq_eq_false_iff_ne.mpr h1
      have b2 : (tag == "shopify") = false := beq_eq_false_iff_ne.mpr h2
      have b3 : (tag == "woocommerce") = false := beq_eq_false_iff_ne.mpr h3
      have b4 : (tag == "real_vendors") = false := beq_eq_false_iff_ne.mpr h4
      have b5 : (tag == "real_vendor") = false := beq_eq_false_iff_ne.mpr h5
      have b6 : (tag == "fallback") = false := beq_eq_false_iff_ne.mpr h6
      simp only [sourceMap, List.lookup, b0, b1, b2, b3, b4, b5, b6]
    have hv : translate currentLanguage "verified" ≠ none ∧
        translate currentLanguage "verified" ≠ some "Unknown" := by
      cases currentLanguage <;> decide
    unfold getSourceInfo at h
    rw [hl] at h
    simp only at h
    split at h
    · exact hv.1 h.symm
    · exact hv.1 h.symm
    · exact hv.2 h.symm
  · intro h
    subst h
    cases currentLanguage <;> decide

/-- C17 (as stated, refuted): a remote result list holding a search-link entry and reported
with the source 'database' is displayed by `searchParts` under the tag 'database', whose badge
is "Verified". -/
theorem remote_search_link_shown_verified :
    searchLinkEntry.isSearchLink = some true ∧
    (searchParts asciiLowerCase "en" false "kraken"
        (.success (some [some searchLinkEntry]) (some "database"))).view =
      View.remoteResults [searchLinkEntry] "database" ∧
    (getSourceInfo Language.en "database").badge = some "Verified" ∧
    displayResults Language.en [searchLinkEntry] "database" =
      Display.listing { name := some "FRC Parts Database", badge := some "Verified" } 1
        [createPartCard Language.en searchLinkEntry true] := by
  refine ⟨rfl, by decide!, by decide!, by decide!⟩

/-- C17 (amended): in every local-fallback outcome of `searchParts`, no entry with
`isSearchLink = true` is displayed under the source tag 'database', and 'database' is the only
tag whose badge is the "verified" one. -/
theorem local_database_without_search_links :
    (∀ (toLowerCase : String → String) (currentLanguage : String)
        (isSearching : Bool) (inputValue : String)
        (remote : RemoteOutcome) (results : List Part) (tag notice : String),
      (searchParts toLowerCase currentLanguage isSearching inputValue remote).view =
          View.localResults results tag notice →
      tag = "database" → ∀ part ∈ results, part.isSearchLink ≠ some true) ∧
    (∀ (currentLanguage : Language) (tag : String),
      (getSourceInfo currentLanguage tag).badge = translate currentLanguage "verified" ↔
        tag = "database") := by
  refine ⟨?_, verified_badge_iff⟩
  intro toLowerCase currentLanguage isSearching inputValue remote results tag notice h htag
    part hp
  obtain ⟨hg, ht⟩ := searchParts_localResults _ _ _ _ _ _ _ _ h
  have hreal : hasRealProducts results = true := by
    rw [htag] at ht
    unfold fallbackSource at ht
    by_contra hc
    rw [if_neg hc] at ht
    revert ht
    decide
  rcases generateMockResults_cases toLowerCase (trim inputValue) with
    ⟨e, he, h1⟩ | ⟨_, h1⟩ | ⟨_, h1⟩
  · rw [h1] at hg
    simp only [JsResult.array.injEq] at hg
    rw [← hg] at hp
    rw [catalog_no_search_link e he part hp]
    simp
  · rw [h1] at hg
    simp only [JsResult.array.injEq] at hg
    rw [← hg, hasRealProducts_genericResults] at hreal
    simp at hreal
  · rw [hg] at h1
    exact absurd h1 member_not_array

theorem local_database_without_search_links_witness :
    (searchParts asciiLowerCase "en" false "kraken"
        (.failure { name := "AbortError", message := "" })).view =
      View.localResults ((REAL_PARTS.lookup "kraken").getD []) "database"
        (insertResultsNotice (localVerifiedNotice "kraken" true)) ∧
    ∀ part ∈ (REAL_PARTS.lookup "kraken").getD [], part.isSearchLink ≠ some true :=
  ⟨by decide!, local_database_without_search_links.1 asciiLowerCase "en" false
    "kraken"
    (.failure { name := "AbortError", message := "" }) ((REAL_PARTS.lookup "kraken").getD [])
    "database" (insertResultsNotice (localVerifiedNotice "kraken" true)) (by decide!) rfl⟩


theorem genericResults_prices (q : String) :
    ∀ part ∈ genericResults q,
      isPositiveFinite part.price = true ∨
      (part.vendor = "Deküp Robotics" ∧ part.isSearchLink = some true ∧
        part.price = .number (.fin 0)) := by
  intro part hp
  simp only [genericResults, vendorFallbacks, fallbackEntry, List.map_cons, List.map_nil,
    List.mem_cons, List.mem_singleton, List.not_mem_nil, or_false] at hp
  rcases hp with h | h | h | h | h
  · left
    rw [h]
    show isPositiveFinite (.number (.fin 45.99)) = true
    decide!
  · left
    rw [h]
    show isPositiveFinite (.number (.fin 52.99)) = true
    decide!
  · left
    rw [h]
    show isPositiveFinite (.number (.fin 54.50)) = true
    decide!
  · left
    rw [h]
    show isPositiveFinite (.number (.fin 58.99)) = true
    decide!
  · right
    rw [h]
    refine ⟨rfl, rfl, ?_⟩
    show JsValue.number (JsNumber.fin 0.0) = JsValue.number (JsNumber.fin 0)
    decide!

/-- C18 (as stated, refuted): the generic vendor results of the query
"xyzzy-unobtainium-999" hold an entry, the one of Deküp, whose price is the number 0: neither a
number above zero nor `null`. -/
theorem generic_results_hold_zero_price :
    generateMockResults asciiLowerCase "xyzzy-unobtainium-999" =
      JsResult.array (genericResults "xyzzy-unobtainium-999") ∧
    (genericResults "xyzzy-unobtainium-999").map (fun part => isPositiveOrNull part.price) =
      [true, true, true, true, false] ∧
    (genericResults "xyzzy-unobtainium-999").map (fun part => Number part.price) =
      [.fin 45.99, .fin 52.99, .fin 54.50, .fin 58.99, .fin 0] := by
  refine ⟨?_, by decide!, by decide!⟩
  have h := generic_of_noKeyMatches asciiLowerCase "xyzzy-unobtainium-999" (by decide!)
    (by decide!)
  rw [generateMockResults, h]

/-- C18 (amended): every entry of an array returned by `generateMockResults` has a price that
is a finite number above zero, except the Deküp entry of the generic vendor fallback, whose
price is the placeholder 0 that `createPartCard` normalizes to `null`. -/
theorem result_prices (toLowerCase : String → String) (q : String) (parts : List Part)
    (h : generateMockResults toLowerCase q = JsResult.array parts) :
    ∀ part ∈ parts,
      isPositiveFinite part.price = true ∨
      (part.vendor = "Deküp Robotics" ∧ part.isSearchLink = some true ∧
        part.price = .number (.fin 0) ∧ normalizedPrice part.price = none) := by
  intro part hp
  rcases generateMockResults_cases toLowerCase q with ⟨e, he, h1⟩ | ⟨_, h1⟩ | ⟨_, h1⟩
  · rw [h1] at h
    simp only [JsResult.array.injEq] at h
    rw [← h] at hp
    exact Or.inl (catalog_prices_positive e he part hp)
  · rw [h1] at h
    simp only [JsResult.array.injEq] at h
    rw [← h] at hp
    rcases genericResults_prices q part hp with hpos | ⟨hv, hs, hz⟩
    · exact Or.inl hpos
    · refine Or.inr ⟨hv, hs, hz, ?_⟩
      rw [hz]
      decide!
  · rw [h] at h1
    exact absurd h1 member_not_array

theorem result_prices_witness :
    generateMockResults asciiLowerCase "neo" = JsResult.array neoMotorEntries ∧
    ∀ part ∈ neoMotorEntries,
      isPositiveFinite part.price = true ∨
      (part.vendor = "Deküp Robotics" ∧ part.isSearchLink = some true ∧
        part.price = .number (.fin 0) ∧ normalizedPrice part.price = none) :=
  ⟨by decide!, result_prices asciiLowerCase "neo" neoMotorEntries (by decide!)⟩

/-! ## The word stage and the queries without letters or digits -/

theorem inherited_not_covered :
    ∀ n ∈ inheritedNames, ∀ e ∈ REAL_PARTS, allQueryWordsMatch n e.1 = false := by
  decide!

theorem find_first_match {α : Type} (p : α → Bool) (before after : List α) (x : α)
    (hbefore : ∀ y ∈ before, p y = false) (hx : p x = true) :
    (before ++ x :: after).find? p = some x := by
  induction before with
  | nil => simp [List.find?, hx]
  | cons y ys ih =>
    have hy : p y = false := hbefore y (List.mem_cons_self _ _)
    simp only [List.cons_append, List.find?, hy]
    exact ih fun z hz => hbefore z (List.mem_cons_of_mem _ hz)

/-- C19: when the lower-cased, trimmed query is no catalog key and no key has its normalized
form, and some key covers every word of the query, `generateMockResults` returns the entries
of the first such key in catalog order, from the word stage. -/
theorem word_subset_first_key (toLowerCase : String → String) (q : String)
    (before after : List (String × List Part)) (first : String × List Part)
    (hsplit : REAL_PARTS = before ++ first :: after)
    (hexact : ∀ e ∈ REAL_PARTS, e.1 ≠ trim (toLowerCase q))
    (hnorm : ∀ e ∈ REAL_PARTS, normalizeQuery toLowerCase e.1 ≠
      normalizeQuery toLowerCase (trim (toLowerCase q)))
    (hbefore : ∀ e ∈ before, allQueryWordsMatch (trim (toLowerCase q)) e.1 = false)
    (hfirst : allQueryWordsMatch (trim (toLowerCase q)) first.1 = true) :
    resolve toLowerCase q = (Stage.wordSubset, JsResult.array first.2) ∧
    generateMockResults toLowerCase q = JsResult.array first.2 := by
  have hmem : first ∈ REAL_PARTS := by
    rw [hsplit]
    exact List.mem_append_right _ (List.mem_cons_self _ _)
  have hlook : REAL_PARTS.lookup (trim (toLowerCase q)) = none := by
    cases hl : REAL_PARTS.lookup (trim (toLowerCase q)) with
    | none => rfl
    | some parts => exact absurd rfl (hexact _ (lookup_some_mem _ _ _ hl))
  have hin : objectPrototypeMember (trim (toLowerCase q)) = none := by
    cases hm : objectPrototypeMember (trim (toLowerCase q)) with
    | none => rfl
    | some v =>
      have := inherited_not_covered _ (mem_inheritedNames hm) first hmem
      rw [hfirst] at this
      simp at this
  have h2 : REAL_PARTS.find? (fun entry =>
      normalizeQuery toLowerCase entry.1 ==
        normalizeQuery toLowerCase (trim (toLowerCase q))) = none := by
    rw [List.find?_eq_none]
    intro e he
    simpa using hnorm e he
  have h3 : REAL_PARTS.find? (fun entry =>
      allQueryWordsMatch (trim (toLowerCase q)) entry.1) = some first := by
    rw [hsplit]
    exact find_first_match _ before after first hbefore hfirst
  have hr : resolve toLowerCase q = (Stage.wordSubset, JsResult.array first.2) := by
    unfold resolve
    simp only [realPartsGet, hlook, hin, h2, h3]
  exact ⟨hr, by rw [generateMockResults, hr]⟩

theorem word_subset_first_key_witness :
    resolve asciiLowerCase " Max  SPARK" =
      (Stage.wordSubset, JsResult.array ((REAL_PARTS.lookup "spark max").getD [])) ∧
    generateMockResults asciiLowerCase " Max  SPARK" =
      JsResult.array ((REAL_PARTS.lookup "spark max").getD []) :=
  word_subset_first_key asciiLowerCase " Max  SPARK" (REAL_PARTS.take 3) (REAL_PARTS.drop 4)
    ("spark max", (REAL_PARTS.lookup "spark max").getD []) (by decide!) (by decide!)
    (by decide!) (by decide!) (by decide!)


theorem not_alnum_toNat {c : Char} (h : c.isAlphanum = false) :
    ¬ (97 ≤ c.toNat ∧ c.toNat ≤ 122) ∧ ¬ (48 ≤ c.toNat ∧ c.toNat ≤ 57) ∧
    ¬ (65 ≤ c.toNat ∧ c.toNat ≤ 90) := by
  simp only [Char.isAlphanum, Char.isAlpha, Char.isUpper, Char.isLower, Char.isDigit,
    Bool.or_eq_false_iff, Bool.and_eq_false_iff, decide_eq_false_iff_not, ge_iff_le,
    UInt32.le_def, Fin.le_def] at h
  obtain ⟨⟨h1, h2⟩, h3⟩ := h
  refine ⟨?_, ?_, ?_⟩
  · rintro ⟨a, b⟩
    rcases h2 with h2 | h2
    · exact h2 a
    · exact h2 b
  · rintro ⟨a, b⟩
    rcases h3 with h3 | h3
    · exact h3 a
    · exact h3 b
  · rintro ⟨a, b⟩
    rcases h1 with h1 | h1
    · exact h1 a
    · exact h1 b

theorem trim_subset (s : String) : ∀ c ∈ (trim s).toList, c ∈ s.toList := by
  intro c hc
  simp only [trim, String.toList, List.mem_reverse] at hc
  have h1 := (List.dropWhile_sublist isJsWhitespace).subset hc
  rw [List.mem_reverse] at h1
  exact (List.dropWhile_sublist isJsWhitespace).subset h1

theorem asciiLowerCase_of_not_alnum (s : String)
    (h : ∀ c ∈ s.toList, c.isAlphanum = false) : asciiLowerCase s = s := by
  unfold asciiLowerCase
  have : s.toList.map Char.toLower = s.toList := by
    conv_rhs => rw [← List.map_id s.toList]
    apply List.map_congr_left
    intro c hc
    have := (not_alnum_toNat (h c hc)).2.2
    unfold Char.toLower
    simp only
    rw [if_neg this]
    rfl
  rw [this]
  rfl

/-- An ASCII text without letter or digit has the empty normalized form. -/
theorem normalized_empty_of_no_alnum (toLowerCase : String → String)
    (hlow : LowerCaseOnAscii toLowerCase) (q : String)
    (h : ∀ c ∈ q.toList, c.toNat < 128 ∧ c.isAlphanum = false) :
    normalizeQuery toLowerCase (trim (toLowerCase q)) = "" := by
  have hq : toLowerCase q = q := by
    rw [hlow q fun c hc => (h c hc).1]
    exact asciiLowerCase_of_not_alnum q fun c hc => (h c hc).2
  rw [hq]
  have ht : ∀ c ∈ (trim q).toList, c.toNat < 128 ∧ c.isAlphanum = false :=
    fun c hc => h c (trim_subset q c hc)
  have ht2 : toLowerCase (trim q) = trim q := by
    rw [hlow _ fun c hc => (ht c hc).1]
    exact asciiLowerCase_of_not_alnum _ fun c hc => (ht c hc).2
  unfold normalizeQuery
  rw [ht2]
  have : (trim q).toList.filter isLowerAlnum = [] := by
    rw [List.filter_eq_nil_iff]
    intro c hc hl
    have h1 := isLowerAlnum_toNat hl
    have h2 := not_alnum_toNat (ht c hc).2
    rcases h1 with h1 | h1
    · exact h2.1 h1
    · exact h2.2.1 h1
  rw [this]

theorem inherited_normalized_nonempty :
    ∀ n ∈ inheritedNames, normalizeQuery asciiLowerCase n ≠ "" := by
  decide!

theorem resolve_genericFallback_find (toLowerCase : String → String) (q : String)
    (h : (resolve toLowerCase q).1 = Stage.genericFallback) :
    REAL_PARTS.find? (fun entry => normalizedSubstringMatch toLowerCase
      (normalizeQuery toLowerCase (trim (toLowerCase q))) entry.1) = none := by
  unfold resolve at h
  simp only at h
  split at h
  · simp at h
  · split at h
    · simp at h
    · split at h
      · simp at h
      · split at h
        · simp at h
        · split at h
          · simp at h
          · assumption

theorem resolve_normalizedSubstring (toLowerCase : String → String) (q : String)
    (h : (resolve toLowerCase q).1 = Stage.normalizedSubstring) :
    ∃ e, REAL_PARTS.find? (fun entry => normalizedSubstringMatch toLowerCase
        (normalizeQuery toLowerCase (trim (toLowerCase q))) entry.1) = some e ∧
      generateMockResults toLowerCase q = JsResult.array e.2 := by
  unfold generateMockResults
  unfold resolve at h ⊢
  simp only at h ⊢
  split at h
  · simp at h
  · split at h
    · simp at h
    · split at h
      · simp at h
      · split at h
        · simp at h
        · split at h
          · next e he => exact ⟨e, he, rfl⟩
          · simp at h

theorem neoMotor_matches_empty (toLowerCase : String → String)
    (hlow : LowerCaseOnAscii toLowerCase) :
    normalizedSubstringMatch toLowerCase "" "neo motor" = true := by
  unfold normalizedSubstringMatch
  simp only
  rw [normalizeQuery_ascii toLowerCase hlow "neo motor" (by decide)]
  decide

theorem dottedLowerCase_onAscii : LowerCaseOnAscii dottedLowerCase := by
  intro s hs
  unfold dottedLowerCase asciiLowerCase
  congr 1
  have hgen : ∀ l : List Char, (∀ c ∈ l, c.toNat < 128) →
      (l.flatMap fun c =>
        if c = Char.ofNat 0x130 then ['i', Char.ofNat 0x307] else [c.toLower]) =
      l.map Char.toLower := by
    intro l
    induction l with
    | nil => intro _; rfl
    | cons x xs ih =>
      intro hl
      have hx : x ≠ Char.ofNat 0x130 := by
        intro h
        have := hl x (List.mem_cons_self _ _)
        rw [h] at this
        revert this
        decide
      rw [List.flatMap_cons, if_neg hx, ih fun c hc => hl c (List.mem_cons_of_mem _ hc)]
      rfl
  exact hgen s.toList hs

/-- C20 (as stated, refuted): the text "\u0130\u0130" holds no ASCII letter or digit, yet
its lower-cased form is `i`, U+0307, `i`, U+0307, its normalized form is "ii", no stage
matches a key and `generateMockResults` returns the generic vendor results. -/
theorem dotted_capitals_reach_generic_fallback :
    (∀ c ∈ "\u0130\u0130".toList, c.isAlphanum = false ∧ 128 ≤ c.toNat) ∧
    dottedLowerCase "\u0130\u0130" = "i\u0307i\u0307" ∧
    normalizeQuery dottedLowerCase (trim (dottedLowerCase "\u0130\u0130")) = "ii" ∧
    resolve dottedLowerCase "\u0130\u0130" =
      (Stage.genericFallback, JsResult.array (genericResults "\u0130\u0130")) ∧
    generateMockResults dottedLowerCase "\u0130\u0130" =
      JsResult.array (genericResults "\u0130\u0130") := by
  refine ⟨by decide, by decide, by decide, ?_, ?_⟩
  · exact generic_of_noKeyMatches dottedLowerCase "\u0130\u0130" (by decide!) (by decide!)
  · rw [generateMockResults,
      generic_of_noKeyMatches dottedLowerCase "\u0130\u0130" (by decide!) (by decide!)]

/-- C20 (amended): a query whose normalized form is empty gets the entries of a catalog key
and never the generic vendor results; when the normalized substring stage is reached it
returns the entries of the first key, 'neo motor', whose normalized form, like that of every
key, contains the empty string. The empty string and every ASCII text without letter or digit
(blanks, "!!!") are such queries. -/
theorem empty_normalized_query (toLowerCase : String → String)
    (hlow : LowerCaseOnAscii toLowerCase) :
    (∀ q : String, normalizeQuery toLowerCase (trim (toLowerCase q)) = "" →
      (∃ e ∈ REAL_PARTS, generateMockResults toLowerCase q = JsResult.array e.2) ∧
      (resolve toLowerCase q).1 ≠ Stage.genericFallback ∧
      ((resolve toLowerCase q).1 = Stage.normalizedSubstring →
        generateMockResults toLowerCase q = JsResult.array neoMotorEntries)) ∧
    (∀ e ∈ REAL_PARTS, includes (normalizeQuery toLowerCase e.1) "" = true) ∧
    (∀ q : String, (∀ c ∈ q.toList, c.toNat < 128 ∧ c.isAlphanum = false) →
      normalizeQuery toLowerCase (trim (toLowerCase q)) = "") := by
  refine ⟨?_, ?_, normalized_empty_of_no_alnum toLowerCase hlow⟩
  · intro q hq
    have hfind : REAL_PARTS.find? (fun entry => normalizedSubstringMatch toLowerCase
        (normalizeQuery toLowerCase (trim (toLowerCase q))) entry.1) =
        some ("neo motor", neoMotorEntries) := by
      rw [hq]
      exact find_first_match _ [] (REAL_PARTS.drop 1) ("neo motor", neoMotorEntries)
        (fun _ h => absurd h (List.not_mem_nil _)) (neoMotor_matches_empty toLowerCase hlow)
    have hstage : (resolve toLowerCase q).1 ≠ Stage.genericFallback := by
      intro h
      rw [resolve_genericFallback_find toLowerCase q h] at hfind
      simp at hfind
    refine ⟨?_, hstage, ?_⟩
    · rcases generateMockResults_cases toLowerCase q with ⟨e, he, h1⟩ | ⟨h1, _⟩ | ⟨_, h1⟩
      · exact ⟨e, he, h1⟩
      · exact absurd h1 hstage
      · have hin := mem_inheritedNames h1
        rw [normalizeQuery_ascii toLowerCase hlow _ (inherited_ascii _ hin)] at hq
        exact absurd hq (inherited_normalized_nonempty _ hin)
    · intro h
      obtain ⟨e, he, hres⟩ := resolve_normalizedSubstring toLowerCase q h
      rw [hfind] at he
      simp only [Option.some.injEq] at he
      rw [hres, ← he]
  · intro e he
    unfold includes
    cases (normalizeQuery toLowerCase e.1).toList <;> rfl

theorem empty_normalized_query_witness :
    LowerCaseOnAscii asciiLowerCase ∧
    normalizeQuery asciiLowerCase (trim (asciiLowerCase " !!! ")) = "" ∧
    resolve asciiLowerCase " !!! " = (Stage.normalizedSubstring, JsResult.array neoMotorEntries) ∧
    ((∃ e ∈ REAL_PARTS, generateMockResults asciiLowerCase " !!! " = JsResult.array e.2) ∧
      (resolve asciiLowerCase " !!! ").1 ≠ Stage.genericFallback ∧
      ((resolve asciiLowerCase " !!! ").1 = Stage.normalizedSubstring →
        generateMockResults asciiLowerCase " !!! " = JsResult.array neoMotorEntries)) ∧
    resolve asciiLowerCase "" = (Stage.wordSubset, JsResult.array neoMotorEntries) ∧
    resolve asciiLowerCase "." =
      (Stage.wordSubset, JsResult.array ((REAL_PARTS.lookup "roborio 2.0").getD [])) :=
  ⟨asciiLowerCase_onAscii, by decide, by decide!,
    (empty_normalized_query asciiLowerCase asciiLowerCase_onAscii).1 " !!! " (by decide),
    by decide!, by decide!⟩

/-! ## The substring stage -/

theorem isInfixOf_iff (needle hay : List Char) :
    isInfixOf needle hay = true ↔ needle <:+: hay := by
  induction hay with
  | nil =>
    simp only [isInfixOf, List.isEmpty_iff, List.infix_nil]
  | cons c cs ih =>
    simp only [isInfixOf, Bool.or_eq_true, List.isPrefixOf_iff_prefix, ih,
      List.infix_cons_iff]

/-- A block without the character `c` that lies in `a ++ c :: b` lies in `a` or in `b`. -/
theorem infix_of_sep (w a b : List Char) (c : Char) (hc : c ∉ w)
    (h : w <:+: a ++ c :: b) : w <:+: a ∨ w <:+: b := by
  obtain ⟨s, t, hst⟩ := h
  rw [List.append_eq_append_iff] at hst
  rcases hst with ⟨a', ha, _⟩ | ⟨c', hsw, hct⟩
  · exact Or.inl ⟨s, a', ha.symm⟩
  · cases c' with
    | nil =>
      rw [List.append_nil] at hsw
      exact Or.inl ⟨s, [], by rw [List.append_nil, hsw]⟩
    | cons x c'' =>
      simp only [List.cons_append, List.cons.injEq] at hct
      obtain ⟨hx, hb⟩ := hct
      subst hx
      rw [List.append_eq_append_iff] at hsw
      rcases hsw with ⟨a', _, hw⟩ | ⟨d, hs, hd⟩
      · exact absurd (by rw [hw]; simp) hc
      · cases d with
        | nil =>
          simp only [List.nil_append] at hd
          exact absurd (by rw [← hd]; simp) hc
        | cons y d' =>
          simp only [List.cons_append, List.cons.injEq] at hd
          exact Or.inr ⟨d', t, by rw [hb, hd.2, List.append_assoc]⟩

theorem splitAux_ne_nil (l cur : List Char) (inSep : Bool) : splitAux l cur inSep ≠ [] := by
  induction l generalizing cur inSep with
  | nil => simp [splitAux]
  | cons c cs ih =>
    unfold splitAux
    split
    · split
      · exact ih _ _
      · simp
    · exact ih _ _

/-- Every piece of a split holds no whitespace and lies in the text as one block. -/
theorem splitAux_pieces (l cur : List Char) (inSep : Bool)
    (hcur : ∀ c ∈ cur, isJsWhitespace c = false) :
    ∀ p ∈ splitAux l cur inSep,
      (∀ c ∈ p.toList, isJsWhitespace c = false) ∧ p.toList <:+: cur.reverse ++ l := by
  induction l generalizing cur inSep with
  | nil =>
    intro p hp
    simp only [splitAux, List.mem_singleton] at hp
    subst hp
    simp only [String.toList, List.append_nil]
    exact ⟨fun c hc => hcur c (List.mem_reverse.mp hc), List.infix_refl _⟩
  | cons x xs ih =>
    intro p hp
    unfold splitAux at hp
    have hrest : ∀ p ∈ splitAux xs [] true,
        (∀ c ∈ p.toList, isJsWhitespace c = false) ∧ p.toList <:+: cur.reverse ++ x :: xs := by
      intro p hp
      obtain ⟨h1, h2⟩ := ih [] true (fun _ h => absurd h (List.not_mem_nil _)) p hp
      refine ⟨h1, ?_⟩
      simp only [List.reverse_nil, List.nil_append] at h2
      exact h2.trans ⟨cur.reverse ++ [x], [], by simp⟩
    split at hp
    · split at hp
      · exact hrest p hp
      · rcases List.mem_cons.mp hp with rfl | hp
        · simp only [String.toList]
          exact ⟨fun c hc => hcur c (List.mem_reverse.mp hc), ⟨[], x :: xs, by simp⟩⟩
        · exact hrest p hp
    · next hx =>
      have hx' : isJsWhitespace x = false := by simpa using hx
      have hcur' : ∀ c ∈ x :: cur, isJsWhitespace c = false := by
        intro c hc
        rcases List.mem_cons.mp hc with rfl | hc
        · exact hx'
        · exact hcur c hc
      obtain ⟨h1, h2⟩ := ih (x :: cur) false hcur' p hp
      refine ⟨h1, ?_⟩
      simpa using h2

/-- A non-empty block without whitespace that lies in the text lies in one piece of its
split. -/
theorem splitAux_covers (l cur : List Char) (inSep : Bool) (w : List Char)
    (hsep : inSep = true → cur = [])
    (hw : ∀ c ∈ w, isJsWhitespace c = false) (hne : w ≠ [])
    (h : w <:+: cur.reverse ++ l) :
    ∃ p ∈ splitAux l cur inSep, w <:+: p.toList := by
  induction l generalizing cur inSep with
  | nil =>
    refine ⟨String.mk cur.reverse, by simp [splitAux], ?_⟩
    simpa [String.toList] using h
  | cons x xs ih =>
    unfold splitAux
    by_cases hx : isJsWhitespace x = true
    · have hxw : x ∉ w := by
        intro hmem
        rw [hw x hmem] at hx
        simp at hx
      simp only [hx, if_true]
      rcases infix_of_sep w cur.reverse xs x hxw h with hl | hr
      · by_cases hs : inSep = true
        · rw [hsep hs] at hl
          simp only [List.reverse_nil, List.infix_nil] at hl
          exact absurd hl hne
        · simp only [hs, Bool.false_eq_true, if_false]
          exact ⟨String.mk cur.reverse, List.mem_cons_self _ _, by simpa [String.toList] using hl⟩
      · obtain ⟨p, hp, hwp⟩ := ih [] true (fun _ => rfl) (by simpa using hr)
        split
        · exact ⟨p, hp, hwp⟩
        · exact ⟨p, List.mem_cons_of_mem _ hp, hwp⟩
    · simp only [hx, Bool.false_eq_true, if_false]
      exact ih (x :: cur) false (fun h => by simp at h) (by simpa using h)

/-- The substring test `key.includes(queryLower)` implies the word test. -/
theorem allQueryWordsMatch_of_includes (queryLower key : String)
    (h : includes key queryLower = true) : allQueryWordsMatch queryLower key = true := by
  have hinf : queryLower.toList <:+: key.toList := (isInfixOf_iff _ _).mp h
  unfold allQueryWordsMatch
  rw [List.all_eq_true]
  intro qWord hq
  rw [List.any_eq_true]
  obtain ⟨hws, hblock⟩ := splitAux_pieces queryLower.toList [] false
    (fun _ h => absurd h (List.not_mem_nil _)) qWord hq
  simp only [List.reverse_nil, List.nil_append] at hblock
  by_cases hne : qWord.toList = []
  · obtain ⟨kWord, hk⟩ := List.exists_mem_of_ne_nil _ (splitAux_ne_nil key.toList [] false)
    refine ⟨kWord, hk, ?_⟩
    simp only [Bool.or_eq_true]
    left
    unfold includes
    rw [hne, isInfixOf_iff]
    exact List.nil_infix
  · obtain ⟨kWord, hk, hwk⟩ := splitAux_covers key.toList [] false qWord.toList
      (fun h => by simp at h) hws hne (by simpa using hblock.trans hinf)
    refine ⟨kWord, hk, ?_⟩
    simp only [Bool.or_eq_true]
    left
    exact (isInfixOf_iff _ _).mpr hwk

theorem find?_congr_mem {α : Type} (p r : α → Bool) (l : List α)
    (h : ∀ x ∈ l, p x = r x) : l.find? p = l.find? r := by
  induction l with
  | nil => rfl
  | cons x xs ih =>
    have hx := h x (List.mem_cons_self _ _)
    have hxs := ih fun y hy => h y (List.mem_cons_of_mem _ hy)
    simp only [List.find?, hx, hxs]

theorem resolve_eq_variant (toLowerCase : String → String) (q : String) :
    resolveQueryIncludesKey toLowerCase q = resolve toLowerCase q := by
  unfold resolveQueryIncludesKey resolve
  simp only
  cases realPartsGet (trim (toLowerCase q)) with
  | some v => rfl
  | none =>
    simp only
    cases REAL_PARTS.find? (fun entry =>
        normalizeQuery toLowerCase entry.1 ==
          normalizeQuery toLowerCase (trim (toLowerCase q))) with
    | some e => rfl
    | none =>
      simp only
      cases h3 : REAL_PARTS.find? (fun entry =>
          allQueryWordsMatch (trim (toLowerCase q)) entry.1) with
      | some e => rfl
      | none =>
        simp only
        have hsame : REAL_PARTS.find? (fun entry => includes (trim (toLowerCase q)) entry.1) =
            REAL_PARTS.find? (fun entry => substringMatch (trim (toLowerCase q)) entry.1) := by
          apply find?_congr_mem
          intro e he
          have hno : allQueryWordsMatch (trim (toLowerCase q)) e.1 = false := by
            have := (List.find?_eq_none.mp h3) e he
            simpa using this
          have hk : includes e.1 (trim (toLowerCase q)) = false := by
            cases hi : includes e.1 (trim (toLowerCase q)) with
            | false => rfl
            | true =>
              rw [allQueryWordsMatch_of_includes _ _ hi] at hno
              simp at hno
          simp [substringMatch, hk]
        rw [hsame]

/-- C21: the test `key.includes(queryLower)` of the substring stage is redundant. Whenever a
key contains the lower-cased, trimmed query as a substring it passes the word test, so
`generateMockResults` equals, on every query, the variant whose substring stage tests only
`queryLower.includes(key)`, and takes the same `return` statement. -/
theorem key_includes_query_redundant (toLowerCase : String → String) :
    (∀ q key : String, includes key (trim (toLowerCase q)) = true →
      allQueryWordsMatch (trim (toLowerCase q)) key = true) ∧
    (∀ q : String, resolveQueryIncludesKey toLowerCase q = resolve toLowerCase q) ∧
    (∀ q : String, generateMockResultsQueryIncludesKey toLowerCase q =
      generateMockResults toLowerCase q) := by
  refine ⟨fun q key h => allQueryWordsMatch_of_includes _ _ h,
    resolve_eq_variant toLowerCase, ?_⟩
  intro q
  unfold generateMockResultsQueryIncludesKey generateMockResults
  rw [resolve_eq_variant]

theorem key_includes_query_redundant_witness :
    includes "neo motor" (trim (asciiLowerCase " O M ")) = true ∧
    allQueryWordsMatch (trim (asciiLowerCase " O M ")) "neo motor" = true ∧
    generateMockResultsQueryIncludesKey asciiLowerCase " O M " =
      JsResult.array neoMotorEntries :=
  ⟨by decide,
    (key_includes_query_redundant asciiLowerCase).1 " O M " "neo motor" (by decide),
    by rw [(key_includes_query_redundant asciiLowerCase).2.2 " O M "]; decide!⟩

/-! ## The stock label of a card -/

theorem catalog_stock_text :
    ∀ e ∈ REAL_PARTS, ∀ p ∈ e.2,
      (p.stock = some "in-stock" ∨ p.stock = some "Sold-out") ∧ p.inStock = none ∧
      ((createPartCard Language.en p false).stockText = StockText.undefined ↔
        p.stock = some "Sold-out") ∧
      ((createPartCard Language.tr p false).stockText = StockText.undefined ↔
        p.stock = some "Sold-out") := by
  decide!

theorem genericResults_stock_text (currentLanguage : Language) (q : String) :
    ∀ p ∈ genericResults q,
      (p.stock = some "in-stock" ∨ p.stock = some "limited-stock") ∧
      (createPartCard currentLanguage p false).stockText ≠ StockText.undefined := by
  intro p hp
  simp only [genericResults, vendorFallbacks, fallbackEntry, List.map_cons, List.map_nil,
    List.mem_cons, List.mem_singleton, List.not_mem_nil, or_false] at hp
  rcases hp with h | h | h | h | h
  · rw [h]
    refine ⟨Or.inl rfl, ?_⟩
    show oldStockText currentLanguage (oldStockClass (some "in-stock")) ≠ StockText.undefined
    cases currentLanguage <;> decide
  · rw [h]
    refine ⟨Or.inr rfl, ?_⟩
    show oldStockText currentLanguage (oldStockClass (some "limited-stock")) ≠
      StockText.undefined
    cases currentLanguage <;> decide
  · rw [h]
    refine ⟨Or.inl rfl, ?_⟩
    show oldStockText currentLanguage (oldStockClass (some "in-stock")) ≠ StockText.undefined
    cases currentLanguage <;> decide
  · rw [h]
    refine ⟨Or.inl rfl, ?_⟩
    show oldStockText currentLanguage (oldStockClass (some "in-stock")) ≠ StockText.undefined
    cases currentLanguage <;> decide
  · rw [h]
    refine ⟨Or.inl rfl, ?_⟩
    show oldStockText currentLanguage (oldStockClass (some "in-stock")) ≠ StockText.undefined
    cases currentLanguage <;> decide

/-- The stock text of an entry returned by `generateMockResults` is undefined exactly when
its stock value is 'Sold-out'. -/
theorem stock_text_undefined_iff (toLowerCase : String → String) (q : String)
    (parts : List Part) (h : generateMockResults toLowerCase q = JsResult.array parts)
    (currentLanguage : Language) :
    ∀ p ∈ parts,
      ((createPartCard currentLanguage p false).stockText = StockText.undefined ↔
        p.stock = some "Sold-out") := by
  intro p hp
  rcases generateMockResults_cases toLowerCase q with ⟨e, he, h1⟩ | ⟨_, h1⟩ | ⟨_, h1⟩
  · rw [h1] at h
    simp only [JsResult.array.injEq] at h
    rw [← h] at hp
    have := catalog_stock_text e he p hp
    cases currentLanguage
    · exact this.2.2.1
    · exact this.2.2.2
  · rw [h1] at h
    simp only [JsResult.array.injEq] at h
    rw [← h] at hp
    obtain ⟨hs, hne⟩ := genericResults_stock_text currentLanguage q p hp
    constructor
    · intro hu
      exact absurd hu hne
    · intro hso
      rcases hs with hs | hs <;> rw [hs] at hso <;> simp at hso
  · rw [h] at h1
    exact absurd h1 member_not_array

/-- C22: the stock label is not defined for every entry `generateMockResults` returns. The
entries of the keys 'limelight' and 'victor spx' carry the stock value 'Sold-out', which is
none of 'in-stock', 'out-of-stock', 'limited-stock': `createPartCard` reads the label object
at 'Sold-out' and renders `undefined`. -/
theorem sold_out_stock_text_undefined :
    generateMockResults asciiLowerCase "limelight" =
      JsResult.array ((REAL_PARTS.lookup "limelight").getD []) ∧
    ((REAL_PARTS.lookup "limelight").getD []).map (fun part =>
        (part.stock, (createPartCard Language.en part false).stockClass,
          (createPartCard Language.en part false).stockText)) =
      [(some "Sold-out", "Sold-out", StockText.undefined)] ∧
    generateMockResults asciiLowerCase "Victor SPX" =
      JsResult.array ((REAL_PARTS.lookup "victor spx").getD []) ∧
    ((REAL_PARTS.lookup "victor spx").getD []).map (fun part =>
        (part.stock, (createPartCard Language.tr part true).stockClass,
          (createPartCard Language.tr part true).stockText)) =
      [(some "Sold-out", "Sold-out", StockText.undefined)] ∧
    ((REAL_PARTS.lookup "kraken").getD []).map (fun part =>
        (createPartCard Language.en part false).stockText) =
      [StockText.text "✓ In Stock", StockText.text "✓ In Stock"] := by
  refine ⟨by decide!, by decide!, by decide!, by decide!, by decide!⟩

end FrcPartsFinder
